import Mathlib

/-!
Verification of the balance-consistency engine of a personal-finance
bookkeeping application (Django app `budget`).

The embedding models a single user's tenant of the relational store as
association lists keyed by primary key.  Monetary amounts (Python
`Decimal` with two fractional digits) are modelled as integers (cents);
every operation of the source is purely additive/comparative on amounts,
so this is faithful.  Dates are modelled as integer day ordinals.

Sources embedded below:
  * `budget/models.py`   — BankAccount.save, Income.save/delete,
    Expense.save/delete, Transfer.save/delete
  * `budget/views.py`    — dashboard historical-balance reconstruction,
    bank_account_update opening-balance revision
  * `budget/forms.py`    — TransferForm.clean
  * `budget/management/commands/recalculate_balances.py` — Command.handle
-/

namespace Budget

abbrev Money := Int
abbrev Pk := Nat
abbrev Day := Int

/-- Row of the BankAccount table (columns relevant to the balance engine). -/
structure AccountRow where
  balance : Money
  opening_balance : Money
  account_setup_date : Option Day
  is_active : Bool
  deriving Repr, DecidableEq

/-- Row of the Category table (single-tenant, so no user column). -/
structure CategoryRow where
  name : String
  category_type : String
  deriving Repr, DecidableEq

/-- Shared row shape of the Income and Expense tables: both have a nullable
account FK, a nullable category FK, an amount and a date. -/
structure TxRow where
  bank_account : Option Pk
  category : Option Pk
  amount : Money
  date : Day
  deriving Repr, DecidableEq

/-- Row of the Transfer table: both endpoints are non-nullable FKs. -/
structure TransferRow where
  from_account : Pk
  to_account : Pk
  amount : Money
  date : Day
  deriving Repr, DecidableEq

/-- A table is an association list keyed by primary key. -/
abbrev Table (α : Type) := List (Pk × α)

/-- `Model.objects.get(pk=pk)`: first row with the given key, if any. -/
def lookupRow {α : Type} (l : Table α) (pk : Pk) : Option α :=
  (l.find? (fun p => p.1 == pk)).map Prod.snd

/-- In-place update of the row with key `pk` (Django `.save()` on an
existing instance). -/
def setRow {α : Type} (l : Table α) (pk : Pk) (v : α) : Table α :=
  l.map (fun p => if p.1 = pk then (pk, v) else p)

/-- `.delete()` of the row with key `pk`. -/
def eraseRow {α : Type} (l : Table α) (pk : Pk) : Table α :=
  l.filter (fun p => !(p.1 == pk))

/-- The whole database: one user's accounts, categories and ledger tables,
plus the auto-increment key counter. -/
structure Db where
  accounts : Table AccountRow
  categories : Table CategoryRow
  incomes : Table TxRow
  expenses : Table TxRow
  transfers : Table TransferRow
  nextPk : Pk
  deriving Repr, DecidableEq

/-- `BankAccount.objects.filter(pk=pk).update(balance=F('balance') + delta)`:
the storage-level atomic relative update; a no-op when no account row has
that key. -/
def updateBalance (db : Db) (pk : Pk) (delta : Money) : Db :=
  { db with accounts := db.accounts.map (fun p =>
      (p.1, if p.1 = pk then { p.2 with balance := p.2.balance + delta } else p.2)) }

/-- `BankAccount.objects.filter(pk=pk).update(balance=v)`: absolute overwrite
of the stored balance. -/
def setBalance (db : Db) (pk : Pk) (v : Money) : Db :=
  { db with accounts := db.accounts.map (fun p =>
      (p.1, if p.1 = pk then { p.2 with balance := v } else p.2)) }

/-- Read an account's stored balance. -/
def lookupBalance (db : Db) (pk : Pk) : Option Money :=
  (lookupRow db.accounts pk).map AccountRow.balance

/-! ### Income.save / Income.delete (models.py 126–181) -/

/-- `Income.save` on a fresh instance: insert the row, then, if it references
an account, add the amount to that account's balance. -/
def incomeCreate (db : Db) (row : TxRow) : Db :=
  let pk := db.nextPk
  let db1 := { db with incomes := db.incomes ++ [(pk, row)], nextPk := pk + 1 }
  match row.bank_account with
  | some acct => updateBalance db1 acct row.amount
  | none => db1

/-- `Income.save` on an existing instance: the old amount/account are read
under a row lock, the row is overwritten, and then the decision table of
lines 149–169 runs: account changed → reverse old, apply new; amount
changed → apply the delta; `self.bank_account` null → no balance update. -/
def incomeUpdate (db : Db) (pk : Pk) (newRow : TxRow) : Db :=
  match lookupRow db.incomes pk with
  | none => db
  | some oldRow =>
    let db1 := { db with incomes := setRow db.incomes pk newRow }
    match newRow.bank_account with
    | none => db1
    | some newAcct =>
      match oldRow.bank_account with
      | some oldAcct =>
        if oldAcct ≠ newAcct then
          updateBalance (updateBalance db1 oldAcct (- oldRow.amount)) newAcct newRow.amount
        else if oldRow.amount ≠ newRow.amount then
          updateBalance db1 newAcct (newRow.amount - oldRow.amount)
        else db1
      | none =>
        if oldRow.amount ≠ newRow.amount then
          updateBalance db1 newAcct (newRow.amount - oldRow.amount)
        else db1

/-- `Income.delete`: subtract the amount from the referenced account (if the
row references one), then remove the row. -/
def incomeDelete (db : Db) (pk : Pk) : Db :=
  match lookupRow db.incomes pk with
  | none => db
  | some row =>
    let db1 := match row.bank_account with
      | some acct => updateBalance db acct (- row.amount)
      | none => db
    { db1 with incomes := eraseRow db1.incomes pk }

/-! ### Expense.save / Expense.delete (models.py 201–256) — mirror image of
Income with the signs flipped. -/

def expenseCreate (db : Db) (row : TxRow) : Db :=
  let pk := db.nextPk
  let db1 := { db with expenses := db.expenses ++ [(pk, row)], nextPk := pk + 1 }
  match row.bank_account with
  | some acct => updateBalance db1 acct (- row.amount)
  | none => db1

def expenseUpdate (db : Db) (pk : Pk) (newRow : TxRow) : Db :=
  match lookupRow db.expenses pk with
  | none => db
  | some oldRow =>
    let db1 := { db with expenses := setRow db.expenses pk newRow }
    match newRow.bank_account with
    | none => db1
    | some newAcct =>
      match oldRow.bank_account with
      | some oldAcct =>
        if oldAcct ≠ newAcct then
          updateBalance (updateBalance db1 oldAcct oldRow.amount) newAcct (- newRow.amount)
        else if oldRow.amount ≠ newRow.amount then
          updateBalance db1 newAcct (- (newRow.amount - oldRow.amount))
        else db1
      | none =>
        if oldRow.amount ≠ newRow.amount then
          updateBalance db1 newAcct (- (newRow.amount - oldRow.amount))
        else db1

def expenseDelete (db : Db) (pk : Pk) : Db :=
  match lookupRow db.expenses pk with
  | none => db
  | some row =>
    let db1 := match row.bank_account with
      | some acct => updateBalance db acct row.amount
      | none => db
    { db1 with expenses := eraseRow db1.expenses pk }

/-! ### Transfer.save / Transfer.delete (models.py 314–400) -/

def transferCreate (db : Db) (row : TransferRow) : Db :=
  let pk := db.nextPk
  let db1 := { db with transfers := db.transfers ++ [(pk, row)], nextPk := pk + 1 }
  updateBalance (updateBalance db1 row.from_account (- row.amount)) row.to_account row.amount

def transferUpdate (db : Db) (pk : Pk) (newRow : TransferRow) : Db :=
  match lookupRow db.transfers pk with
  | none => db
  | some oldRow =>
    let db1 := { db with transfers := setRow db.transfers pk newRow }
    if oldRow.from_account ≠ newRow.from_account ∨ oldRow.to_account ≠ newRow.to_account then
      updateBalance (updateBalance (updateBalance (updateBalance db1
        oldRow.from_account oldRow.amount)
        oldRow.to_account (- oldRow.amount))
        newRow.from_account (- newRow.amount))
        newRow.to_account newRow.amount
    else if oldRow.amount ≠ newRow.amount then
      updateBalance (updateBalance db1
        newRow.from_account (- (newRow.amount - oldRow.amount)))
        newRow.to_account (newRow.amount - oldRow.amount)
    else db1

def transferDelete (db : Db) (pk : Pk) : Db :=
  match lookupRow db.transfers pk with
  | none => db
  | some row =>
    let db1 := updateBalance (updateBalance db row.from_account row.amount)
      row.to_account (- row.amount)
    { db1 with transfers := eraseRow db1.transfers pk }

/-! ### Ledger aggregates and the balance invariant
(`recalculate_balances.py` 16–34 and spec §8). -/

/-- `Model.objects.filter(...).aggregate(Sum('amount'))` over a table: sum of a
per-row contribution (the filter is folded into the contribution function,
which returns 0 for rows the filter excludes). -/
def tableSum {α : Type} (f : α → Money) (l : Table α) : Money :=
  (l.map (fun p => f p.2)).sum

/-- Contribution of an Income/Expense row to the aggregate
`filter(bank_account=acct)`. -/
def txContrib (acct : Pk) (r : TxRow) : Money :=
  if r.bank_account = some acct then r.amount else 0

/-- Contribution of a Transfer row to `filter(to_account=acct)`. -/
def transferInContrib (acct : Pk) (r : TransferRow) : Money :=
  if r.to_account = acct then r.amount else 0

/-- Contribution of a Transfer row to `filter(from_account=acct)`. -/
def transferOutContrib (acct : Pk) (r : TransferRow) : Money :=
  if r.from_account = acct then r.amount else 0

/-- `calculated_balance` of `recalculate_balances.py`:
ΣIncome − ΣExpense + ΣTransfersIn − ΣTransfersOut for one account, an
unconditional aggregate over all time. -/
def computedBalance (db : Db) (acct : Pk) : Money :=
  tableSum (txContrib acct) db.incomes - tableSum (txContrib acct) db.expenses
    + tableSum (transferInContrib acct) db.transfers
    - tableSum (transferOutContrib acct) db.transfers

/-- The balance-consistency invariant (spec §8): every stored balance equals
the ledger-derived balance of that account. -/
def balanceInvariant (db : Db) : Prop :=
  ∀ p ∈ db.accounts, p.2.balance = computedBalance db p.1

instance (db : Db) : Decidable (balanceInvariant db) := by
  unfold balanceInvariant; exact List.decidableBAll _ _

/-! ### The ledger-entry operations as a state machine (claim C1). -/

/-- One create/update/delete lifecycle event on an Income, Expense or
Transfer row. -/
inductive Op where
  | incomeCreate (row : TxRow)
  | incomeUpdate (pk : Pk) (row : TxRow)
  | incomeDelete (pk : Pk)
  | expenseCreate (row : TxRow)
  | expenseUpdate (pk : Pk) (row : TxRow)
  | expenseDelete (pk : Pk)
  | transferCreate (row : TransferRow)
  | transferUpdate (pk : Pk) (row : TransferRow)
  | transferDelete (pk : Pk)
  deriving Repr, DecidableEq

def applyOp (db : Db) : Op → Db
  | .incomeCreate row => incomeCreate db row
  | .incomeUpdate pk row => incomeUpdate db pk row
  | .incomeDelete pk => incomeDelete db pk
  | .expenseCreate row => expenseCreate db row
  | .expenseUpdate pk row => expenseUpdate db pk row
  | .expenseDelete pk => expenseDelete db pk
  | .transferCreate row => transferCreate db row
  | .transferUpdate pk row => transferUpdate db pk row
  | .transferDelete pk => transferDelete db pk

def applyOps (db : Db) (ops : List Op) : Db := ops.foldl applyOp db

/-- Key discipline of the relational store: within each ledger table the
primary keys are distinct and below the auto-increment counter. -/
def keysOk {α : Type} (l : Table α) (bound : Pk) : Prop :=
  (l.map Prod.fst).Nodup ∧ ∀ p ∈ l, p.1 < bound

instance {α : Type} (l : Table α) (bound : Pk) : Decidable (keysOk l bound) := by
  unfold keysOk; exact instDecidableAnd

def Wf (db : Db) : Prop :=
  keysOk db.incomes db.nextPk ∧ keysOk db.expenses db.nextPk ∧ keysOk db.transfers db.nextPk

instance (db : Db) : Decidable (Wf db) := by
  unfold Wf; exact instDecidableAnd

/-- An Income/Expense update whose row references an account both before and
after the write (the configuration every form-driven update has; the
`bank_account` FK is only null after an account deletion). -/
def attachedUpdate (tbl : Table TxRow) (pk : Pk) (newRow : TxRow) : Bool :=
  newRow.bank_account.isSome &&
    (match lookupRow tbl pk with
     | some oldRow => oldRow.bank_account.isSome
     | none => true)

def goodOp (db : Db) : Op → Bool
  | .incomeUpdate pk row => attachedUpdate db.incomes pk row
  | .expenseUpdate pk row => attachedUpdate db.expenses pk row
  | _ => true

def goodOps : Db → List Op → Bool
  | _, [] => true
  | db, op :: rest => goodOp db op && goodOps (applyOp db op) rest

/-! ### BankAccount.save for new accounts (models.py 45–85). -/

/-- `Category.objects.get_or_create(name='Opening Balance',
defaults=dict(category_type='income'))` followed by forcing the type to
income (models.py 62–71); matching is by name within the user's rows. -/
def getOrCreateIncomeCategory (db : Db) (nm : String) : Pk × Db :=
  match db.categories.find? (fun p => p.2.name == nm) with
  | some (k, cat) =>
    if cat.category_type ≠ "income" then
      (k, { db with categories := setRow db.categories k { cat with category_type := "income" } })
    else (k, db)
  | none =>
    let newCat : Pk × CategoryRow := (db.nextPk, ⟨nm, "income"⟩)
    (db.nextPk, { db with categories := db.categories ++ [newCat], nextPk := db.nextPk + 1 })

/-- `BankAccount.save` on a fresh instance: persist the row (recording the
opening balance when the initial balance is truthy, i.e. non-zero); then,
when the initial balance is non-zero AND a setup date is present, force the
stored balance to zero and create the "Opening Balance" Income, whose own
save adds the amount back.  Returns the new account's key. -/
def bankAccountCreate (db : Db) (balance0 : Money) (setup : Option Day) : Pk × Db :=
  let pk := db.nextPk
  let opening : Money := if balance0 ≠ 0 then balance0 else 0
  let acct : AccountRow := ⟨balance0, opening, setup, true⟩
  let db1 : Db := { db with accounts := db.accounts ++ [(pk, acct)], nextPk := pk + 1 }
  if balance0 ≠ 0 then
    match setup with
    | some d =>
      let pr := getOrCreateIncomeCategory db1 "Opening Balance"
      let db3 := setBalance pr.2 pk 0
      (pk, incomeCreate db3 ⟨some pk, some pr.1, balance0, d⟩)
    | none => (pk, db1)
  else (pk, db1)

/-! ### Historical balance reconstruction (views.py dashboard 289–325). -/

/-- Sum of Income amounts on `acct` dated strictly after `cutoff`
(`date__gt=end_of_month`). -/
def futureIncomeSum (db : Db) (acct : Pk) (cutoff : Day) : Money :=
  tableSum (fun r => if r.bank_account = some acct ∧ cutoff < r.date then r.amount else 0)
    db.incomes

def futureExpenseSum (db : Db) (acct : Pk) (cutoff : Day) : Money :=
  tableSum (fun r => if r.bank_account = some acct ∧ cutoff < r.date then r.amount else 0)
    db.expenses

def futureTransferOutSum (db : Db) (acct : Pk) (cutoff : Day) : Money :=
  tableSum (fun r => if r.from_account = acct ∧ cutoff < r.date then r.amount else 0)
    db.transfers

def futureTransferInSum (db : Db) (acct : Pk) (cutoff : Day) : Money :=
  tableSum (fun r => if r.to_account = acct ∧ cutoff < r.date then r.amount else 0)
    db.transfers

/-- views.py 291–323: start from the account's current stored balance and
undo every entry dated strictly after the target date. -/
def historicalBalance (db : Db) (p : Pk × AccountRow) (cutoff : Day) : Money :=
  p.2.balance - futureIncomeSum db p.1 cutoff + futureExpenseSum db p.1 cutoff
    + futureTransferOutSum db p.1 cutoff - futureTransferInSum db p.1 cutoff

/-- views.py 290: an account enters the whole-ledger aggregate for a date
only when it is active and its setup date is present and on-or-before that
date (`account_setup_date__lte` excludes NULL). -/
def accountQualifies (p : Pk × AccountRow) (cutoff : Day) : Bool :=
  p.2.is_active &&
    (match p.2.account_setup_date with
     | some d => decide (d ≤ cutoff)
     | none => false)

/-- views.py 289–325: `month_balance`, the net worth at `cutoff`, summing the
reconstructed balances of the qualifying accounts. -/
def netWorthAt (db : Db) (cutoff : Day) : Money :=
  ((db.accounts.filter (fun p => accountQualifies p cutoff)).map
    (fun p => historicalBalance db p cutoff)).sum

/-- The ledger-derived balance of an account restricted to entries dated
on-or-before `cutoff` (what the reconstruction should produce). -/
def computedBalanceAsOf (db : Db) (acct : Pk) (cutoff : Day) : Money :=
  tableSum (fun r => if r.bank_account = some acct ∧ r.date ≤ cutoff then r.amount else 0)
      db.incomes
    - tableSum (fun r => if r.bank_account = some acct ∧ r.date ≤ cutoff then r.amount else 0)
      db.expenses
    + tableSum (fun r => if r.to_account = acct ∧ r.date ≤ cutoff then r.amount else 0)
      db.transfers
    - tableSum (fun r => if r.from_account = acct ∧ r.date ≤ cutoff then r.amount else 0)
      db.transfers

/-! ### The reconciliation job (recalculate_balances.py 10–52). -/

/-- Whether `Command.handle` rewrites this account's balance: it must be
active and its stored balance must differ from the recomputed one. -/
def needsFix (db : Db) (p : Pk × AccountRow) : Bool :=
  p.2.is_active && decide (p.2.balance ≠ computedBalance db p.1)

/-- `Command.handle`: for every active account recompute the balance from the
ledger and overwrite the stored value when it differs; the second component
is `fixed_count`, the number of corrections reported.  The recomputed value
reads only the ledger tables, which the loop never writes, so evaluating all
aggregates against the pre-loop state is faithful. -/
def recalculateBalances (db : Db) : Db × Nat :=
  ({ db with accounts := db.accounts.map (fun p =>
      (p.1, if needsFix db p then { p.2 with balance := computedBalance db p.1 } else p.2)) },
   (db.accounts.filter (fun p => needsFix db p)).length)

/-! ### TransferForm.clean (forms.py 253–297). -/

/-- `TransferForm.clean`: the four sequential validation checks; the first
failing check raises.  `instanceRow` is the transfer being edited, when any
(`self.instance` with a primary key).  A zero amount is falsy in Python, so
the balance check is skipped for it, exactly as in the source. -/
def transferFormClean (db : Db) (instanceRow : Option TransferRow)
    (fromPk? toPk? : Option Pk) (d : Day) (amount : Money) : Except String Unit := do
  -- from-account setup-date check
  match fromPk?.bind (lookupRow db.accounts) with
  | some acc =>
    match acc.account_setup_date with
    | some sd => if d < sd then throw "Transfer date cannot be before the from account setup date." else pure ()
    | none => pure ()
  | none => pure ()
  -- to-account setup-date check
  match toPk?.bind (lookupRow db.accounts) with
  | some acc =>
    match acc.account_setup_date with
    | some sd => if d < sd then throw "Transfer date cannot be before the to account setup date." else pure ()
    | none => pure ()
  | none => pure ()
  -- same-account check
  match fromPk?, toPk? with
  | some f, some t =>
    if f = t then throw "Cannot transfer to the same account." else pure ()
  | _, _ => pure ()
  -- insufficient-balance check (skipped when amount is falsy, i.e. zero)
  match fromPk? with
  | some f =>
    if amount ≠ 0 then
      match lookupRow db.accounts f with
      | some acc =>
        let available : Money :=
          match instanceRow with
          | some inst => if inst.from_account = f then acc.balance + inst.amount else acc.balance
          | none => acc.balance
        if available < amount then throw "Insufficient balance." else pure ()
      | none => pure ()
    else pure ()
  | none => pure ()

/-- views.py transfer_create: validate through the form; only when validation
succeeds is the Transfer saved (which is what mutates balances). -/
def transferCreateView (db : Db) (fromPk? toPk? : Option Pk) (d : Day) (amount : Money) : Db :=
  match transferFormClean db none fromPk? toPk? d amount with
  | .error _ => db
  | .ok _ =>
    match fromPk?, toPk? with
    | some f, some t => transferCreate db ⟨f, t, amount, d⟩
    | _, _ => db

/-! ### Opening-balance revision (views.py bank_account_update 500–632). -/

/-- The lookup of views.py 528–534: the Income rows on this account whose
category joins to name "Opening Balance" with type income, dated exactly at
the account's setup date (a NULL setup date matches no row, since the date
column is non-null). -/
def openingMarkerPred (db : Db) (acctPk : Pk) (setup : Option Day) (p : Pk × TxRow) : Bool :=
  (p.2.bank_account == some acctPk) &&
  (match p.2.category with
   | some c =>
     match lookupRow db.categories c with
     | some cat => cat.name == "Opening Balance" && cat.category_type == "income"
     | none => false
   | none => false) &&
  (setup == some p.2.date)

/-- `updated_account.save(update_fields=[..., 'opening_balance', ...])`: the
account row is rewritten with a new opening-balance field; balance and setup
date are deliberately not in `update_fields`. -/
def setOpeningField (db : Db) (pk : Pk) (v : Money) : Db :=
  { db with accounts := db.accounts.map (fun p =>
      (p.1, if p.1 = pk then { p.2 with opening_balance := v } else p.2)) }

/-- views.py 516–618, the `opening_balance_changed` path of
`bank_account_update` (the submitted value is non-null).  The view computes
`new_opening_balance or old_opening_balance` for the stored field, so a
submitted zero keeps the old stored field while still updating the marker.
With exactly one marker row: save the account fields then delegate to
`Income.save`'s amount-changed path.  With no marker row: get-or-create the
category, save the account, force the balance to the net of all other
transactions, then create a fresh marker Income (which requires a setup
date; with a NULL setup date the insert fails after the earlier writes, as
the view runs without a transaction wrapper).  Two or more marker rows make
the `.get` raise before any write. -/
def bankAccountUpdateOpening (db : Db) (acctPk : Pk) (newOpening : Money) : Db :=
  match lookupRow db.accounts acctPk with
  | none => db
  | some acct =>
    if newOpening = acct.opening_balance then db
    else
      let storedOpening : Money := if newOpening = 0 then acct.opening_balance else newOpening
      match db.incomes.filter (openingMarkerPred db acctPk acct.account_setup_date) with
      | [(ipk, irow)] =>
        let db1 := setOpeningField db acctPk storedOpening
        incomeUpdate db1 ipk { irow with amount := newOpening }
      | [] =>
        let pr := getOrCreateIncomeCategory db "Opening Balance"
        let db2 := setOpeningField pr.2 acctPk storedOpening
        let isOpeningName : Option Pk → Bool := fun c? =>
          match c? with
          | some c =>
            match lookupRow db2.categories c with
            | some cat => cat.name == "Opening Balance"
            | none => false
          | none => false
        let otherNet : Money :=
          tableSum (fun r =>
            if r.bank_account = some acctPk ∧ isOpeningName r.category = false
            then r.amount else 0) db2.incomes
          - tableSum (txContrib acctPk) db2.expenses
          + tableSum (transferInContrib acctPk) db2.transfers
          - tableSum (transferOutContrib acctPk) db2.transfers
        let db3 := setBalance db2 acctPk otherNet
        match acct.account_setup_date with
        | some d => incomeCreate db3 ⟨some acctPk, some pr.1, newOpening, d⟩
        | none => db3
      | _ => db

/-! ### Concrete states used to exercise the theorems -/

/-- The empty database. -/
def dbEmpty : Db where
  accounts := []
  categories := []
  incomes := []
  expenses := []
  transfers := []
  nextPk := 1

/-- One active account (pk 1) with balance 0 and no ledger rows. -/
def dbOneAccount : Db where
  accounts := [(1, ⟨0, 0, some 0, true⟩)]
  categories := []
  incomes := []
  expenses := []
  transfers := []
  nextPk := 2

/-- An account whose stored balance (77) drifted from its ledger, which
holds a single Income of 100. -/
def dbDrift : Db where
  accounts := [(1, ⟨77, 0, some 0, true⟩)]
  categories := []
  incomes := [(2, ⟨some 1, none, 100, 1⟩)]
  expenses := []
  transfers := []
  nextPk := 3

/-- Two active accounts (pk 1 and 2), both at balance 0, no ledger rows. -/
def dbTwoAccounts : Db where
  accounts := [(1, ⟨0, 0, some 0, true⟩), (2, ⟨0, 0, some 0, true⟩)]
  categories := []
  incomes := []
  expenses := []
  transfers := []
  nextPk := 3

/-- An account with balance 1500 = opening 1000 + salary 500, its marker
Income (pk 10, category 5 "Opening Balance") dated at the setup date, and
a salary Income (pk 11, category 6). -/
def dbOpening : Db where
  accounts := [(1, ⟨1500, 1000, some 0, true⟩)]
  categories := [(5, ⟨"Opening Balance", "income"⟩), (6, ⟨"Salary", "income"⟩)]
  incomes := [(10, ⟨some 1, some 5, 1000, 0⟩), (11, ⟨some 1, some 6, 500, 3⟩)]
  expenses := []
  transfers := []
  nextPk := 12

/-- An account currently at 1500 after Incomes of 1000 (date 0) and 500
(date 10); the 500 is dated after the cutoff 5 used in the C6 witness. -/
def dbHist : Db where
  accounts := [(1, ⟨1500, 0, some 0, true⟩)]
  categories := []
  incomes := [(2, ⟨some 1, none, 1000, 0⟩), (3, ⟨some 1, none, 500, 10⟩)]
  expenses := []
  transfers := []
  nextPk := 4

/-! ## Lemmas about the table primitives -/

theorem lookupRow_cons {α : Type} (x : Pk × α) (l : Table α) (pk : Pk) :
    lookupRow (x :: l) pk = if x.1 = pk then some x.2 else lookupRow l pk := by
  by_cases h : x.1 = pk
  · rw [lookupRow, List.find?_cons_of_pos _ (by simp [h]), if_pos h]
    rfl
  · rw [lookupRow, List.find?_cons_of_neg _ (by simp [h]), if_neg h]
    rfl

theorem lookupRow_eq_none {α : Type} (l : Table α) (pk : Pk)
    (h : pk ∉ l.map Prod.fst) : lookupRow l pk = none := by
  induction l with
  | nil => rfl
  | cons x xs ih =>
    rw [List.map_cons, List.mem_cons] at h
    push_neg at h
    rw [lookupRow_cons, if_neg (fun he => h.1 he.symm)]
    exact ih h.2

theorem lookupRow_append_last {α : Type} (l : Table α) (pk : Pk) (v : α)
    (h : pk ∉ l.map Prod.fst) : lookupRow (l ++ [(pk, v)]) pk = some v := by
  induction l with
  | nil => simp [lookupRow]
  | cons x xs ih =>
    rw [List.map_cons, List.mem_cons] at h
    push_neg at h
    rw [List.cons_append, lookupRow_cons, if_neg (fun he => h.1 he.symm)]
    exact ih h.2

theorem lookupRow_of_mem {α : Type} {l : Table α} {pk : Pk} {v : α}
    (hnd : (l.map Prod.fst).Nodup) (hm : (pk, v) ∈ l) : lookupRow l pk = some v := by
  induction l with
  | nil => cases hm
  | cons x xs ih =>
    rw [List.map_cons, List.nodup_cons] at hnd
    rw [lookupRow_cons]
    rcases List.mem_cons.mp hm with he | hm'
    · rw [← he]
      simp
    · have hx : x.1 ≠ pk := by
        intro he
        have hmem : pk ∈ xs.map Prod.fst := List.mem_map.mpr ⟨(pk, v), hm', rfl⟩
        exact hnd.1 (he ▸ hmem)
      rw [if_neg hx]
      exact ih hnd.2 hm'

theorem lookupRow_map {α β : Type} (g : Pk → α → β) (l : Table α) (c : Pk) :
    lookupRow (l.map (fun p => (p.1, g p.1 p.2))) c = (lookupRow l c).map (g c) := by
  induction l with
  | nil => rfl
  | cons x xs ih =>
    rw [List.map_cons, lookupRow_cons, lookupRow_cons]
    by_cases h : x.1 = c
    · simp [h]
    · simp [h, ih]

theorem keys_setRow {α : Type} (l : Table α) (pk : Pk) (v : α) :
    (setRow l pk v).map Prod.fst = l.map Prod.fst := by
  unfold setRow
  rw [List.map_map]
  apply List.map_congr_left
  intro p _
  by_cases h : p.1 = pk <;> simp [Function.comp, h]

theorem setRow_of_not_mem {α : Type} (l : Table α) (pk : Pk) (v : α)
    (h : pk ∉ l.map Prod.fst) : setRow l pk v = l := by
  unfold setRow
  conv_rhs => rw [← List.map_id l]
  apply List.map_congr_left
  intro p hp
  have hne : p.1 ≠ pk := by
    intro he
    exact h (List.mem_map.mpr ⟨p, hp, he⟩)
  simp [hne]

theorem eraseRow_cons {α : Type} (x : Pk × α) (l : Table α) (pk : Pk) :
    eraseRow (x :: l) pk = if x.1 = pk then eraseRow l pk else x :: eraseRow l pk := by
  by_cases h : x.1 = pk <;> simp [eraseRow, List.filter_cons, h]

theorem eraseRow_of_not_mem {α : Type} (l : Table α) (pk : Pk)
    (h : pk ∉ l.map Prod.fst) : eraseRow l pk = l := by
  induction l with
  | nil => rfl
  | cons x xs ih =>
    rw [List.map_cons, List.mem_cons] at h
    push_neg at h
    rw [eraseRow_cons, if_neg (fun he => h.1 he.symm), ih h.2]

@[simp] theorem tableSum_nil {α : Type} (f : α → Money) : tableSum f ([] : Table α) = 0 := rfl

@[simp] theorem tableSum_cons {α : Type} (f : α → Money) (x : Pk × α) (l : Table α) :
    tableSum f (x :: l) = f x.2 + tableSum f l := by
  unfold tableSum
  rw [List.map_cons, List.sum_cons]

theorem tableSum_append {α : Type} (f : α → Money) (l : Table α) (x : Pk × α) :
    tableSum f (l ++ [x]) = tableSum f l + f x.2 := by
  unfold tableSum
  rw [List.map_append, List.sum_append]
  simp

theorem tableSum_congr {α : Type} {f g : α → Money} (l : Table α) (h : ∀ r, f r = g r) :
    tableSum f l = tableSum g l := by
  unfold tableSum
  congr 1
  exact List.map_congr_left (fun p _ => h p.2)

theorem tableSum_split {α : Type} (f g : α → Money) (l : Table α) :
    tableSum (fun r => f r + g r) l = tableSum f l + tableSum g l := by
  induction l with
  | nil => rfl
  | cons x xs ih => rw [tableSum_cons, tableSum_cons, tableSum_cons, ih]; ring

theorem tableSum_setRow {α : Type} (f : α → Money) {l : Table α} {pk : Pk} {oldv : α} (v : α)
    (hnd : (l.map Prod.fst).Nodup) (hl : lookupRow l pk = some oldv) :
    tableSum f (setRow l pk v) = tableSum f l - f oldv + f v := by
  induction l with
  | nil => simp [lookupRow] at hl
  | cons x xs ih =>
    rw [List.map_cons, List.nodup_cons] at hnd
    rw [lookupRow_cons] at hl
    by_cases h : x.1 = pk
    · rw [if_pos h] at hl
      have hv : oldv = x.2 := by injection hl with h1; exact h1.symm
      have hx : pk ∉ xs.map Prod.fst := h ▸ hnd.1
      show tableSum f ((if x.1 = pk then (pk, v) else x) :: setRow xs pk v) = _
      rw [if_pos h, setRow_of_not_mem xs pk v hx, tableSum_cons, tableSum_cons, hv]
      ring
    · rw [if_neg h] at hl
      show tableSum f ((if x.1 = pk then (pk, v) else x) :: setRow xs pk v) = _
      rw [if_neg h, tableSum_cons, tableSum_cons, ih hnd.2 hl]
      ring

theorem tableSum_eraseRow {α : Type} (f : α → Money) {l : Table α} {pk : Pk} {oldv : α}
    (hnd : (l.map Prod.fst).Nodup) (hl : lookupRow l pk = some oldv) :
    tableSum f (eraseRow l pk) = tableSum f l - f oldv := by
  induction l with
  | nil => simp [lookupRow] at hl
  | cons x xs ih =>
    rw [List.map_cons, List.nodup_cons] at hnd
    rw [lookupRow_cons] at hl
    rw [eraseRow_cons]
    by_cases h : x.1 = pk
    · rw [if_pos h] at hl
      have hv : oldv = x.2 := by injection hl with h1; exact h1.symm
      have hx : pk ∉ xs.map Prod.fst := h ▸ hnd.1
      rw [if_pos h, eraseRow_of_not_mem xs pk hx, tableSum_cons, hv]
      ring
    · rw [if_neg h] at hl
      rw [if_neg h, tableSum_cons, tableSum_cons, ih hnd.2 hl]
      ring

/-! ## Balance updates as uniform per-key shifts -/

/-- Add a per-key delta to the stored balance of every account row. -/
def bump (eff : Pk → Money) (p : Pk × AccountRow) : Pk × AccountRow :=
  (p.1, { p.2 with balance := p.2.balance + eff p.1 })


theorem updateBalance_accounts (db : Db) (pk : Pk) (d : Money) :
    (updateBalance db pk d).accounts
      = db.accounts.map (bump (fun a => if pk = a then d else 0)) := by
  show db.accounts.map _ = _
  apply List.map_congr_left
  intro p _
  by_cases h : p.1 = pk
  · simp [bump, h]
  · have h2 : ¬ pk = p.1 := fun he => h he.symm
    simp [bump, h, h2]

theorem map_bump_bump (l : Table AccountRow) (e1 e2 : Pk → Money) :
    (l.map (bump e1)).map (bump e2) = l.map (bump (fun a => e1 a + e2 a)) := by
  rw [List.map_map]
  apply List.map_congr_left
  intro p _
  simp [bump, Function.comp, add_assoc]

theorem map_bump_zero (l : Table AccountRow) :
    l.map (bump (fun _ => 0)) = l := by
  conv_rhs => rw [← List.map_id l]
  apply List.map_congr_left
  intro p _
  simp [bump]

theorem computedBalance_updateBalance (db : Db) (pk : Pk) (d : Money) (a : Pk) :
    computedBalance (updateBalance db pk d) a = computedBalance db a := rfl

theorem updateBalance_incomes (db : Db) (pk : Pk) (d : Money) :
    (updateBalance db pk d).incomes = db.incomes := rfl

theorem updateBalance_expenses (db : Db) (pk : Pk) (d : Money) :
    (updateBalance db pk d).expenses = db.expenses := rfl

theorem updateBalance_transfers (db : Db) (pk : Pk) (d : Money) :
    (updateBalance db pk d).transfers = db.transfers := rfl

theorem updateBalance_categories (db : Db) (pk : Pk) (d : Money) :
    (updateBalance db pk d).categories = db.categories := rfl

theorem updateBalance_nextPk (db : Db) (pk : Pk) (d : Money) :
    (updateBalance db pk d).nextPk = db.nextPk := rfl

theorem ite_neg_zero {c : Prop} [Decidable c] (x : Money) :
    (if c then -x else 0) = - (if c then x else 0) := by
  by_cases h : c <;> simp [h]

theorem ite_sub_zero {c : Prop} [Decidable c] (x y : Money) :
    (if c then x - y else 0) = (if c then x else 0) - (if c then y else 0) := by
  by_cases h : c <;> simp [h]

/-- If the accounts table shifted by a per-key delta and every ledger-derived
balance shifted by the same delta, the invariant carries over. -/
theorem balanceInvariant_shift {db db' : Db} (eff : Pk → Money)
    (hacc : db'.accounts = db.accounts.map (bump eff))
    (hcomp : ∀ a, computedBalance db' a = computedBalance db a + eff a)
    (hinv : balanceInvariant db) : balanceInvariant db' := by
  intro p hp
  rw [hacc] at hp
  obtain ⟨q, hq, rfl⟩ := List.mem_map.mp hp
  show (bump eff q).2.balance = computedBalance db' (bump eff q).1
  simp only [bump]
  rw [hcomp q.1, hinv q hq]

/-! ## Each ledger operation preserves the balance invariant
(updates only under the attachment discipline). -/

theorem incomeCreate_invariant (db : Db) (row : TxRow) (hinv : balanceInvariant db) :
    balanceInvariant (incomeCreate db row) := by
  cases hba : row.bank_account with
  | none =>
    have hd : incomeCreate db row
        = { db with incomes := db.incomes ++ [(db.nextPk, row)], nextPk := db.nextPk + 1 } := by
      simp only [incomeCreate, hba]
    rw [hd]
    apply balanceInvariant_shift (fun _ => 0) ?_ ?_ hinv
    · rw [map_bump_zero]
    · intro a
      unfold computedBalance
      dsimp only
      rw [tableSum_append]
      simp [txContrib, hba]
  | some b =>
    have hd : incomeCreate db row
        = updateBalance { db with incomes := db.incomes ++ [(db.nextPk, row)], nextPk := db.nextPk + 1 } b row.amount := by
      simp only [incomeCreate, hba]
    rw [hd]
    apply balanceInvariant_shift (fun a => if b = a then row.amount else 0) ?_ ?_ hinv
    · rw [updateBalance_accounts]
    · intro a
      rw [computedBalance_updateBalance]
      unfold computedBalance
      dsimp only
      rw [tableSum_append]
      unfold txContrib
      rw [hba]
      simp only [Option.some.injEq]
      ring

theorem expenseCreate_invariant (db : Db) (row : TxRow) (hinv : balanceInvariant db) :
    balanceInvariant (expenseCreate db row) := by
  cases hba : row.bank_account with
  | none =>
    have hd : expenseCreate db row
        = { db with expenses := db.expenses ++ [(db.nextPk, row)], nextPk := db.nextPk + 1 } := by
      simp only [expenseCreate, hba]
    rw [hd]
    apply balanceInvariant_shift (fun _ => 0) ?_ ?_ hinv
    · rw [map_bump_zero]
    · intro a
      unfold computedBalance
      dsimp only
      rw [tableSum_append]
      simp [txContrib, hba]
  | some b =>
    have hd : expenseCreate db row
        = updateBalance { db with expenses := db.expenses ++ [(db.nextPk, row)], nextPk := db.nextPk + 1 } b (- row.amount) := by
      simp only [expenseCreate, hba]
    rw [hd]
    apply balanceInvariant_shift (fun a => if b = a then - row.amount else 0) ?_ ?_ hinv
    · rw [updateBalance_accounts]
    · intro a
      rw [computedBalance_updateBalance]
      unfold computedBalance
      dsimp only
      rw [tableSum_append]
      unfold txContrib
      rw [hba]
      simp only [Option.some.injEq, ite_neg_zero]
      ring

theorem transferCreate_invariant (db : Db) (row : TransferRow) (hinv : balanceInvariant db) :
    balanceInvariant (transferCreate db row) := by
  have hd : transferCreate db row
      = updateBalance (updateBalance { db with transfers := db.transfers ++ [(db.nextPk, row)], nextPk := db.nextPk + 1 } row.from_account (- row.amount)) row.to_account row.amount := by
    simp only [transferCreate]
  rw [hd]
  apply balanceInvariant_shift
    (fun a => (if row.from_account = a then - row.amount else 0)
      + (if row.to_account = a then row.amount else 0)) ?_ ?_ hinv
  · rw [updateBalance_accounts, updateBalance_accounts, map_bump_bump]
  · intro a
    rw [computedBalance_updateBalance, computedBalance_updateBalance]
    unfold computedBalance
    dsimp only
    rw [tableSum_append, tableSum_append]
    unfold transferInContrib transferOutContrib
    simp only [ite_neg_zero]
    ring

theorem incomeDelete_invariant (db : Db) (pk : Pk)
    (hnd : (db.incomes.map Prod.fst).Nodup) (hinv : balanceInvariant db) :
    balanceInvariant (incomeDelete db pk) := by
  cases hl : lookupRow db.incomes pk with
  | none =>
    have hd : incomeDelete db pk = db := by
      simp only [incomeDelete, hl]
    rw [hd]
    exact hinv
  | some row =>
    cases hba : row.bank_account with
    | none =>
      have hd : incomeDelete db pk = { db with incomes := eraseRow db.incomes pk } := by
        simp only [incomeDelete, hl, hba]
      rw [hd]
      apply balanceInvariant_shift (fun _ => 0) ?_ ?_ hinv
      · rw [map_bump_zero]
      · intro a
        unfold computedBalance
        dsimp only
        rw [tableSum_eraseRow (txContrib a) hnd hl]
        simp [txContrib, hba]
    | some acct =>
      have hd : incomeDelete db pk
          = { updateBalance db acct (- row.amount) with incomes := eraseRow db.incomes pk } := by
        simp only [incomeDelete, hl, hba]
        rfl
      rw [hd]
      apply balanceInvariant_shift (fun a => if acct = a then - row.amount else 0)
        ?_ ?_ hinv
      · show (updateBalance db acct (- row.amount)).accounts = _
        rw [updateBalance_accounts]
      · intro a
        unfold computedBalance
        dsimp only
        simp only [updateBalance_incomes, updateBalance_expenses, updateBalance_transfers]
        rw [tableSum_eraseRow (txContrib a) hnd hl]
        unfold txContrib
        rw [hba]
        simp only [Option.some.injEq, ite_neg_zero]
        ring

theorem expenseDelete_invariant (db : Db) (pk : Pk)
    (hnd : (db.expenses.map Prod.fst).Nodup) (hinv : balanceInvariant db) :
    balanceInvariant (expenseDelete db pk) := by
  cases hl : lookupRow db.expenses pk with
  | none =>
    have hd : expenseDelete db pk = db := by
      simp only [expenseDelete, hl]
    rw [hd]
    exact hinv
  | some row =>
    cases hba : row.bank_account with
    | none =>
      have hd : expenseDelete db pk = { db with expenses := eraseRow db.expenses pk } := by
        simp only [expenseDelete, hl, hba]
      rw [hd]
      apply balanceInvariant_shift (fun _ => 0) ?_ ?_ hinv
      · rw [map_bump_zero]
      · intro a
        unfold computedBalance
        dsimp only
        rw [tableSum_eraseRow (txContrib a) hnd hl]
        simp [txContrib, hba]
    | some acct =>
      have hd : expenseDelete db pk
          = { updateBalance db acct row.amount with expenses := eraseRow db.expenses pk } := by
        simp only [expenseDelete, hl, hba]
        rfl
      rw [hd]
      apply balanceInvariant_shift (fun a => if acct = a then row.amount else 0)
        ?_ ?_ hinv
      · show (updateBalance db acct row.amount).accounts = _
        rw [updateBalance_accounts]
      · intro a
        unfold computedBalance
        dsimp only
        simp only [updateBalance_incomes, updateBalance_expenses, updateBalance_transfers]
        rw [tableSum_eraseRow (txContrib a) hnd hl]
        unfold txContrib
        rw [hba]
        simp only [Option.some.injEq, ite_neg_zero]
        ring

theorem transferDelete_invariant (db : Db) (pk : Pk)
    (hnd : (db.transfers.map Prod.fst).Nodup) (hinv : balanceInvariant db) :
    balanceInvariant (transferDelete db pk) := by
  cases hl : lookupRow db.transfers pk with
  | none =>
    have hd : transferDelete db pk = db := by
      simp only [transferDelete, hl]
    rw [hd]
    exact hinv
  | some row =>
    have hd : transferDelete db pk
        = { updateBalance (updateBalance db row.from_account row.amount) row.to_account (- row.amount) with transfers := eraseRow db.transfers pk } := by
      simp only [transferDelete, hl]
      rfl
    rw [hd]
    apply balanceInvariant_shift
      (fun a => (if row.from_account = a then row.amount else 0)
        + (if row.to_account = a then - row.amount else 0)) ?_ ?_ hinv
    · show ((updateBalance (updateBalance db row.from_account row.amount)
          row.to_account (- row.amount))).accounts = _
      rw [updateBalance_accounts, updateBalance_accounts, map_bump_bump]
    · intro a
      unfold computedBalance
      dsimp only
      simp only [updateBalance_incomes, updateBalance_expenses, updateBalance_transfers]
      rw [tableSum_eraseRow (transferInContrib a) hnd hl,
        tableSum_eraseRow (transferOutContrib a) hnd hl]
      unfold transferInContrib transferOutContrib
      simp only [ite_neg_zero]
      ring

theorem incomeUpdate_invariant (db : Db) (pk : Pk) (newRow : TxRow)
    (hnd : (db.incomes.map Prod.fst).Nodup)
    (hatt : attachedUpdate db.incomes pk newRow = true)
    (hinv : balanceInvariant db) : balanceInvariant (incomeUpdate db pk newRow) := by
  cases hl : lookupRow db.incomes pk with
  | none =>
    have hd : incomeUpdate db pk newRow = db := by
      simp only [incomeUpdate, hl]
    rw [hd]
    exact hinv
  | some oldRow =>
    simp only [attachedUpdate, hl, Bool.and_eq_true] at hatt
    obtain ⟨nb, hnb⟩ := Option.isSome_iff_exists.mp hatt.1
    obtain ⟨ob, hob⟩ := Option.isSome_iff_exists.mp hatt.2
    by_cases hne : ob ≠ nb
    · have hd : incomeUpdate db pk newRow
          = updateBalance (updateBalance { db with incomes := setRow db.incomes pk newRow } ob (- oldRow.amount)) nb newRow.amount := by
        simp only [incomeUpdate, hl, hnb, hob]
        rw [if_pos hne]
      rw [hd]
      apply balanceInvariant_shift
        (fun a => (if ob = a then - oldRow.amount else 0)
          + (if nb = a then newRow.amount else 0)) ?_ ?_ hinv
      · rw [updateBalance_accounts, updateBalance_accounts, map_bump_bump]
      · intro a
        rw [computedBalance_updateBalance, computedBalance_updateBalance]
        unfold computedBalance
        dsimp only
        rw [tableSum_setRow (txContrib a) newRow hnd hl]
        unfold txContrib
        rw [hob, hnb]
        simp only [Option.some.injEq, ite_neg_zero]
        ring
    · push_neg at hne
      subst hne
      by_cases hamt : oldRow.amount ≠ newRow.amount
      · have hd : incomeUpdate db pk newRow
            = updateBalance { db with incomes := setRow db.incomes pk newRow } ob (newRow.amount - oldRow.amount) := by
          simp only [incomeUpdate, hl, hnb, hob]
          rw [if_neg (fun h : ob ≠ ob => h rfl), if_pos hamt]
        rw [hd]
        apply balanceInvariant_shift
          (fun a => if ob = a then newRow.amount - oldRow.amount else 0) ?_ ?_ hinv
        · rw [updateBalance_accounts]
        · intro a
          rw [computedBalance_updateBalance]
          unfold computedBalance
          dsimp only
          rw [tableSum_setRow (txContrib a) newRow hnd hl]
          unfold txContrib
          rw [hob, hnb]
          simp only [Option.some.injEq, ite_sub_zero]
          ring
      · push_neg at hamt
        have hd : incomeUpdate db pk newRow = { db with incomes := setRow db.incomes pk newRow } := by
          simp only [incomeUpdate, hl, hnb, hob]
          rw [if_neg (fun h : ob ≠ ob => h rfl),
            if_neg (fun h : oldRow.amount ≠ newRow.amount => h hamt)]
        rw [hd]
        apply balanceInvariant_shift (fun _ => 0) ?_ ?_ hinv
        · rw [map_bump_zero]
        · intro a
          unfold computedBalance
          dsimp only
          rw [tableSum_setRow (txContrib a) newRow hnd hl]
          unfold txContrib
          rw [hob, hnb, hamt]
          ring

theorem expenseUpdate_invariant (db : Db) (pk : Pk) (newRow : TxRow)
    (hnd : (db.expenses.map Prod.fst).Nodup)
    (hatt : attachedUpdate db.expenses pk newRow = true)
    (hinv : balanceInvariant db) : balanceInvariant (expenseUpdate db pk newRow) := by
  cases hl : lookupRow db.expenses pk with
  | none =>
    have hd : expenseUpdate db pk newRow = db := by
      simp only [expenseUpdate, hl]
    rw [hd]
    exact hinv
  | some oldRow =>
    simp only [attachedUpdate, hl, Bool.and_eq_true] at hatt
    obtain ⟨nb, hnb⟩ := Option.isSome_iff_exists.mp hatt.1
    obtain ⟨ob, hob⟩ := Option.isSome_iff_exists.mp hatt.2
    by_cases hne : ob ≠ nb
    · have hd : expenseUpdate db pk newRow
          = updateBalance (updateBalance { db with expenses := setRow db.expenses pk newRow } ob oldRow.amount) nb (- newRow.amount) := by
        simp only [expenseUpdate, hl, hnb, hob]
        rw [if_pos hne]
      rw [hd]
      apply balanceInvariant_shift
        (fun a => (if ob = a then oldRow.amount else 0)
          + (if nb = a then - newRow.amount else 0)) ?_ ?_ hinv
      · rw [updateBalance_accounts, updateBalance_accounts, map_bump_bump]
      · intro a
        rw [computedBalance_updateBalance, computedBalance_updateBalance]
        unfold computedBalance
        dsimp only
        rw [tableSum_setRow (txContrib a) newRow hnd hl]
        unfold txContrib
        rw [hob, hnb]
        simp only [Option.some.injEq, ite_neg_zero]
        ring
    · push_neg at hne
      subst hne
      by_cases hamt : oldRow.amount ≠ newRow.amount
      · have hd : expenseUpdate db pk newRow
            = updateBalance { db with expenses := setRow db.expenses pk newRow } ob (- (newRow.amount - oldRow.amount)) := by
          simp only [expenseUpdate, hl, hnb, hob]
          rw [if_neg (fun h : ob ≠ ob => h rfl), if_pos hamt]
        rw [hd]
        apply balanceInvariant_shift
          (fun a => if ob = a then - (newRow.amount - oldRow.amount) else 0) ?_ ?_ hinv
        · rw [updateBalance_accounts]
        · intro a
          rw [computedBalance_updateBalance]
          unfold computedBalance
          dsimp only
          rw [tableSum_setRow (txContrib a) newRow hnd hl]
          unfold txContrib
          rw [hob, hnb]
          simp only [Option.some.injEq, ite_neg_zero, ite_sub_zero]
          ring
      · push_neg at hamt
        have hd : expenseUpdate db pk newRow = { db with expenses := setRow db.expenses pk newRow } := by
          simp only [expenseUpdate, hl, hnb, hob]
          rw [if_neg (fun h : ob ≠ ob => h rfl),
            if_neg (fun h : oldRow.amount ≠ newRow.amount => h hamt)]
        rw [hd]
        apply balanceInvariant_shift (fun _ => 0) ?_ ?_ hinv
        · rw [map_bump_zero]
        · intro a
          unfold computedBalance
          dsimp only
          rw [tableSum_setRow (txContrib a) newRow hnd hl]
          unfold txContrib
          rw [hob, hnb, hamt]
          ring

theorem transferUpdate_invariant (db : Db) (pk : Pk) (newRow : TransferRow)
    (hnd : (db.transfers.map Prod.fst).Nodup) (hinv : balanceInvariant db) :
    balanceInvariant (transferUpdate db pk newRow) := by
  cases hl : lookupRow db.transfers pk with
  | none =>
    have hd : transferUpdate db pk newRow = db := by
      simp only [transferUpdate, hl]
    rw [hd]
    exact hinv
  | some oldRow =>
    by_cases hch : oldRow.from_account ≠ newRow.from_account ∨ oldRow.to_account ≠ newRow.to_account
    · have hd : transferUpdate db pk newRow
          = updateBalance (updateBalance (updateBalance (updateBalance { db with transfers := setRow db.transfers pk newRow } oldRow.from_account oldRow.amount) oldRow.to_account (- oldRow.amount)) newRow.from_account (- newRow.amount)) newRow.to_account newRow.amount := by
        simp only [transferUpdate, hl]
        rw [if_pos hch]
      rw [hd]
      apply balanceInvariant_shift
        (fun a => (if oldRow.from_account = a then oldRow.amount else 0)
          + ((if oldRow.to_account = a then - oldRow.amount else 0)
            + ((if newRow.from_account = a then - newRow.amount else 0)
              + (if newRow.to_account = a then newRow.amount else 0)))) ?_ ?_ hinv
      · rw [updateBalance_accounts, updateBalance_accounts, updateBalance_accounts,
          updateBalance_accounts, map_bump_bump, map_bump_bump, map_bump_bump]
      · intro a
        simp only [computedBalance_updateBalance]
        unfold computedBalance
        dsimp only
        rw [tableSum_setRow (transferInContrib a) newRow hnd hl,
          tableSum_setRow (transferOutContrib a) newRow hnd hl]
        unfold transferInContrib transferOutContrib
        simp only [ite_neg_zero]
        ring
    · have hch2 := hch
      push_neg at hch2
      by_cases hamt : oldRow.amount ≠ newRow.amount
      · have hd : transferUpdate db pk newRow
            = updateBalance (updateBalance { db with transfers := setRow db.transfers pk newRow } newRow.from_account (- (newRow.amount - oldRow.amount))) newRow.to_account (newRow.amount - oldRow.amount) := by
          simp only [transferUpdate, hl]
          rw [if_neg hch, if_pos hamt]
        rw [hd]
        apply balanceInvariant_shift
          (fun a => (if newRow.from_account = a then - (newRow.amount - oldRow.amount) else 0)
            + (if newRow.to_account = a then newRow.amount - oldRow.amount else 0)) ?_ ?_ hinv
        · rw [updateBalance_accounts, updateBalance_accounts, map_bump_bump]
        · intro a
          simp only [computedBalance_updateBalance]
          unfold computedBalance
          dsimp only
          rw [tableSum_setRow (transferInContrib a) newRow hnd hl,
            tableSum_setRow (transferOutContrib a) newRow hnd hl]
          unfold transferInContrib transferOutContrib
          rw [hch2.1, hch2.2]
          simp only [ite_neg_zero, ite_sub_zero]
          ring
      · push_neg at hamt
        have hd : transferUpdate db pk newRow
            = { db with transfers := setRow db.transfers pk newRow } := by
          simp only [transferUpdate, hl]
          rw [if_neg hch, if_neg (fun h : oldRow.amount ≠ newRow.amount => h hamt)]
        rw [hd]
        apply balanceInvariant_shift (fun _ => 0) ?_ ?_ hinv
        · rw [map_bump_zero]
        · intro a
          unfold computedBalance
          dsimp only
          rw [tableSum_setRow (transferInContrib a) newRow hnd hl,
            tableSum_setRow (transferOutContrib a) newRow hnd hl]
          unfold transferInContrib transferOutContrib
          rw [hch2.1, hch2.2, hamt]
          ring

/-! ## Key discipline is preserved by every operation -/

theorem keysOk_mono {α : Type} {l : Table α} {n m : Pk} (h : keysOk l n) (hnm : n ≤ m) :
    keysOk l m :=
  ⟨h.1, fun p hp => lt_of_lt_of_le (h.2 p hp) hnm⟩

theorem keysOk_append {α : Type} {l : Table α} {n : Pk} (v : α) (h : keysOk l n) :
    keysOk (l ++ [(n, v)]) (n + 1) := by
  refine ⟨?_, ?_⟩
  · rw [List.map_append]
    refine List.Nodup.append h.1 (List.nodup_singleton n) ?_
    intro a ha hb
    simp only [List.map_cons, List.map_nil, List.mem_singleton] at hb
    subst hb
    obtain ⟨p, hp, rfl⟩ := List.mem_map.mp ha
    exact absurd (h.2 p hp) (lt_irrefl _)
  · intro p hp
    rcases List.mem_append.mp hp with h1 | h2
    · exact Nat.lt_succ_of_lt (h.2 p h1)
    · rw [List.mem_singleton] at h2
      subst h2
      exact Nat.lt_succ_self n

theorem keysOk_setRow {α : Type} {l : Table α} {n : Pk} (pk : Pk) (v : α) (h : keysOk l n) :
    keysOk (setRow l pk v) n := by
  refine ⟨by rw [keys_setRow]; exact h.1, ?_⟩
  intro p hp
  have hmem : p.1 ∈ (setRow l pk v).map Prod.fst := List.mem_map_of_mem _ hp
  rw [keys_setRow] at hmem
  obtain ⟨q, hq, he⟩ := List.mem_map.mp hmem
  rw [← he]
  exact h.2 q hq

theorem keysOk_eraseRow {α : Type} {l : Table α} {n : Pk} (pk : Pk) (h : keysOk l n) :
    keysOk (eraseRow l pk) n := by
  refine ⟨?_, ?_⟩
  · exact List.Nodup.sublist (List.Sublist.map Prod.fst (List.filter_sublist l)) h.1
  · intro p hp
    exact h.2 p (List.mem_of_mem_filter hp)

theorem incomeCreate_incomes (db : Db) (row : TxRow) :
    (incomeCreate db row).incomes = db.incomes ++ [(db.nextPk, row)] := by
  unfold incomeCreate
  cases row.bank_account <;> rfl

theorem incomeCreate_expenses (db : Db) (row : TxRow) :
    (incomeCreate db row).expenses = db.expenses := by
  unfold incomeCreate
  cases row.bank_account <;> rfl

theorem incomeCreate_transfers (db : Db) (row : TxRow) :
    (incomeCreate db row).transfers = db.transfers := by
  unfold incomeCreate
  cases row.bank_account <;> rfl

theorem incomeCreate_categories (db : Db) (row : TxRow) :
    (incomeCreate db row).categories = db.categories := by
  unfold incomeCreate
  cases row.bank_account <;> rfl

theorem incomeCreate_nextPk (db : Db) (row : TxRow) :
    (incomeCreate db row).nextPk = db.nextPk + 1 := by
  unfold incomeCreate
  cases row.bank_account <;> rfl

theorem expenseCreate_incomes (db : Db) (row : TxRow) :
    (expenseCreate db row).incomes = db.incomes := by
  unfold expenseCreate
  cases row.bank_account <;> rfl

theorem expenseCreate_expenses (db : Db) (row : TxRow) :
    (expenseCreate db row).expenses = db.expenses ++ [(db.nextPk, row)] := by
  unfold expenseCreate
  cases row.bank_account <;> rfl

theorem expenseCreate_transfers (db : Db) (row : TxRow) :
    (expenseCreate db row).transfers = db.transfers := by
  unfold expenseCreate
  cases row.bank_account <;> rfl

theorem expenseCreate_nextPk (db : Db) (row : TxRow) :
    (expenseCreate db row).nextPk = db.nextPk + 1 := by
  unfold expenseCreate
  cases row.bank_account <;> rfl

theorem transferCreate_incomes (db : Db) (row : TransferRow) :
    (transferCreate db row).incomes = db.incomes := rfl

theorem transferCreate_expenses (db : Db) (row : TransferRow) :
    (transferCreate db row).expenses = db.expenses := rfl

theorem transferCreate_transfers (db : Db) (row : TransferRow) :
    (transferCreate db row).transfers = db.transfers ++ [(db.nextPk, row)] := rfl

theorem transferCreate_nextPk (db : Db) (row : TransferRow) :
    (transferCreate db row).nextPk = db.nextPk + 1 := rfl

theorem incomeUpdate_incomes_some (db : Db) (pk : Pk) (newRow oldRow : TxRow)
    (hl : lookupRow db.incomes pk = some oldRow) :
    (incomeUpdate db pk newRow).incomes = setRow db.incomes pk newRow := by
  simp only [incomeUpdate, hl]
  cases newRow.bank_account with
  | none => rfl
  | some nb =>
    dsimp only
    cases oldRow.bank_account with
    | some ob => dsimp only; split_ifs <;> rfl
    | none => dsimp only; split_ifs <;> rfl

theorem incomeUpdate_expenses (db : Db) (pk : Pk) (newRow : TxRow) :
    (incomeUpdate db pk newRow).expenses = db.expenses := by
  unfold incomeUpdate
  cases lookupRow db.incomes pk with
  | none => rfl
  | some oldRow =>
    dsimp only
    cases newRow.bank_account with
    | none => rfl
    | some nb =>
      dsimp only
      cases oldRow.bank_account with
      | some ob => dsimp only; split_ifs <;> rfl
      | none => dsimp only; split_ifs <;> rfl

theorem incomeUpdate_transfers (db : Db) (pk : Pk) (newRow : TxRow) :
    (incomeUpdate db pk newRow).transfers = db.transfers := by
  unfold incomeUpdate
  cases lookupRow db.incomes pk with
  | none => rfl
  | some oldRow =>
    dsimp only
    cases newRow.bank_account with
    | none => rfl
    | some nb =>
      dsimp only
      cases oldRow.bank_account with
      | some ob => dsimp only; split_ifs <;> rfl
      | none => dsimp only; split_ifs <;> rfl

theorem incomeUpdate_nextPk (db : Db) (pk : Pk) (newRow : TxRow) :
    (incomeUpdate db pk newRow).nextPk = db.nextPk := by
  unfold incomeUpdate
  cases lookupRow db.incomes pk with
  | none => rfl
  | some oldRow =>
    dsimp only
    cases newRow.bank_account with
    | none => rfl
    | some nb =>
      dsimp only
      cases oldRow.bank_account with
      | some ob => dsimp only; split_ifs <;> rfl
      | none => dsimp only; split_ifs <;> rfl

theorem expenseUpdate_expenses_some (db : Db) (pk : Pk) (newRow oldRow : TxRow)
    (hl : lookupRow db.expenses pk = some oldRow) :
    (expenseUpdate db pk newRow).expenses = setRow db.expenses pk newRow := by
  simp only [expenseUpdate, hl]
  cases newRow.bank_account with
  | none => rfl
  | some nb =>
    dsimp only
    cases oldRow.bank_account with
    | some ob => dsimp only; split_ifs <;> rfl
    | none => dsimp only; split_ifs <;> rfl

theorem expenseUpdate_incomes (db : Db) (pk : Pk) (newRow : TxRow) :
    (expenseUpdate db pk newRow).incomes = db.incomes := by
  unfold expenseUpdate
  cases lookupRow db.expenses pk with
  | none => rfl
  | some oldRow =>
    dsimp only
    cases newRow.bank_account with
    | none => rfl
    | some nb =>
      dsimp only
      cases oldRow.bank_account with
      | some ob => dsimp only; split_ifs <;> rfl
      | none => dsimp only; split_ifs <;> rfl

theorem expenseUpdate_transfers (db : Db) (pk : Pk) (newRow : TxRow) :
    (expenseUpdate db pk newRow).transfers = db.transfers := by
  unfold expenseUpdate
  cases lookupRow db.expenses pk with
  | none => rfl
  | some oldRow =>
    dsimp only
    cases newRow.bank_account with
    | none => rfl
    | some nb =>
      dsimp only
      cases oldRow.bank_account with
      | some ob => dsimp only; split_ifs <;> rfl
      | none => dsimp only; split_ifs <;> rfl

theorem expenseUpdate_nextPk (db : Db) (pk : Pk) (newRow : TxRow) :
    (expenseUpdate db pk newRow).nextPk = db.nextPk := by
  unfold expenseUpdate
  cases lookupRow db.expenses pk with
  | none => rfl
  | some oldRow =>
    dsimp only
    cases newRow.bank_account with
    | none => rfl
    | some nb =>
      dsimp only
      cases oldRow.bank_account with
      | some ob => dsimp only; split_ifs <;> rfl
      | none => dsimp only; split_ifs <;> rfl

theorem transferUpdate_transfers_some (db : Db) (pk : Pk) (newRow oldRow : TransferRow)
    (hl : lookupRow db.transfers pk = some oldRow) :
    (transferUpdate db pk newRow).transfers = setRow db.transfers pk newRow := by
  simp only [transferUpdate, hl]
  split_ifs <;> rfl

theorem transferUpdate_incomes (db : Db) (pk : Pk) (newRow : TransferRow) :
    (transferUpdate db pk newRow).incomes = db.incomes := by
  unfold transferUpdate
  cases lookupRow db.transfers pk with
  | none => rfl
  | some oldRow => dsimp only; split_ifs <;> rfl

theorem transferUpdate_expenses (db : Db) (pk : Pk) (newRow : TransferRow) :
    (transferUpdate db pk newRow).expenses = db.expenses := by
  unfold transferUpdate
  cases lookupRow db.transfers pk with
  | none => rfl
  | some oldRow => dsimp only; split_ifs <;> rfl

theorem transferUpdate_nextPk (db : Db) (pk : Pk) (newRow : TransferRow) :
    (transferUpdate db pk newRow).nextPk = db.nextPk := by
  unfold transferUpdate
  cases lookupRow db.transfers pk with
  | none => rfl
  | some oldRow => dsimp only; split_ifs <;> rfl

theorem incomeUpdate_eq_none (db : Db) (pk : Pk) (newRow : TxRow)
    (hl : lookupRow db.incomes pk = none) : incomeUpdate db pk newRow = db := by
  simp only [incomeUpdate, hl]

theorem expenseUpdate_eq_none (db : Db) (pk : Pk) (newRow : TxRow)
    (hl : lookupRow db.expenses pk = none) : expenseUpdate db pk newRow = db := by
  simp only [expenseUpdate, hl]

theorem transferUpdate_eq_none (db : Db) (pk : Pk) (newRow : TransferRow)
    (hl : lookupRow db.transfers pk = none) : transferUpdate db pk newRow = db := by
  simp only [transferUpdate, hl]

theorem incomeDelete_eq_none (db : Db) (pk : Pk)
    (hl : lookupRow db.incomes pk = none) : incomeDelete db pk = db := by
  simp only [incomeDelete, hl]

theorem expenseDelete_eq_none (db : Db) (pk : Pk)
    (hl : lookupRow db.expenses pk = none) : expenseDelete db pk = db := by
  simp only [expenseDelete, hl]

theorem transferDelete_eq_none (db : Db) (pk : Pk)
    (hl : lookupRow db.transfers pk = none) : transferDelete db pk = db := by
  simp only [transferDelete, hl]

theorem incomeDelete_incomes_some (db : Db) (pk : Pk) (row : TxRow)
    (hl : lookupRow db.incomes pk = some row) :
    (incomeDelete db pk).incomes = eraseRow db.incomes pk := by
  simp only [incomeDelete, hl]
  cases row.bank_account <;> rfl

theorem incomeDelete_expenses (db : Db) (pk : Pk) :
    (incomeDelete db pk).expenses = db.expenses := by
  unfold incomeDelete
  cases lookupRow db.incomes pk with
  | none => rfl
  | some row =>
    dsimp only
    cases row.bank_account <;> rfl

theorem incomeDelete_transfers (db : Db) (pk : Pk) :
    (incomeDelete db pk).transfers = db.transfers := by
  unfold incomeDelete
  cases lookupRow db.incomes pk with
  | none => rfl
  | some row =>
    dsimp only
    cases row.bank_account <;> rfl

theorem incomeDelete_nextPk (db : Db) (pk : Pk) :
    (incomeDelete db pk).nextPk = db.nextPk := by
  unfold incomeDelete
  cases lookupRow db.incomes pk with
  | none => rfl
  | some row =>
    dsimp only
    cases row.bank_account <;> rfl

theorem expenseDelete_expenses_some (db : Db) (pk : Pk) (row : TxRow)
    (hl : lookupRow db.expenses pk = some row) :
    (expenseDelete db pk).expenses = eraseRow db.expenses pk := by
  simp only [expenseDelete, hl]
  cases row.bank_account <;> rfl

theorem expenseDelete_incomes (db : Db) (pk : Pk) :
    (expenseDelete db pk).incomes = db.incomes := by
  unfold expenseDelete
  cases lookupRow db.expenses pk with
  | none => rfl
  | some row =>
    dsimp only
    cases row.bank_account <;> rfl

theorem expenseDelete_transfers (db : Db) (pk : Pk) :
    (expenseDelete db pk).transfers = db.transfers := by
  unfold expenseDelete
  cases lookupRow db.expenses pk with
  | none => rfl
  | some row =>
    dsimp only
    cases row.bank_account <;> rfl

theorem expenseDelete_nextPk (db : Db) (pk : Pk) :
    (expenseDelete db pk).nextPk = db.nextPk := by
  unfold expenseDelete
  cases lookupRow db.expenses pk with
  | none => rfl
  | some row =>
    dsimp only
    cases row.bank_account <;> rfl

theorem transferDelete_transfers_some (db : Db) (pk : Pk) (row : TransferRow)
    (hl : lookupRow db.transfers pk = some row) :
    (transferDelete db pk).transfers = eraseRow db.transfers pk := by
  simp only [transferDelete, hl]
  rfl

theorem transferDelete_incomes (db : Db) (pk : Pk) :
    (transferDelete db pk).incomes = db.incomes := by
  unfold transferDelete
  cases lookupRow db.transfers pk with
  | none => rfl
  | some row => rfl

theorem transferDelete_expenses (db : Db) (pk : Pk) :
    (transferDelete db pk).expenses = db.expenses := by
  unfold transferDelete
  cases lookupRow db.transfers pk with
  | none => rfl
  | some row => rfl

theorem transferDelete_nextPk (db : Db) (pk : Pk) :
    (transferDelete db pk).nextPk = db.nextPk := by
  unfold transferDelete
  cases lookupRow db.transfers pk with
  | none => rfl
  | some row => rfl

theorem applyOp_wf (db : Db) (op : Op) (hwf : Wf db) : Wf (applyOp db op) := by
  obtain ⟨h1, h2, h3⟩ := hwf
  cases op with
  | incomeCreate row =>
    show Wf (incomeCreate db row)
    refine ⟨?_, ?_, ?_⟩
    · rw [incomeCreate_incomes, incomeCreate_nextPk]
      exact keysOk_append row h1
    · rw [incomeCreate_expenses, incomeCreate_nextPk]
      exact keysOk_mono h2 (Nat.le_succ _)
    · rw [incomeCreate_transfers, incomeCreate_nextPk]
      exact keysOk_mono h3 (Nat.le_succ _)
  | expenseCreate row =>
    show Wf (expenseCreate db row)
    refine ⟨?_, ?_, ?_⟩
    · rw [expenseCreate_incomes, expenseCreate_nextPk]
      exact keysOk_mono h1 (Nat.le_succ _)
    · rw [expenseCreate_expenses, expenseCreate_nextPk]
      exact keysOk_append row h2
    · rw [expenseCreate_transfers, expenseCreate_nextPk]
      exact keysOk_mono h3 (Nat.le_succ _)
  | transferCreate row =>
    show Wf (transferCreate db row)
    refine ⟨?_, ?_, ?_⟩
    · rw [transferCreate_incomes, transferCreate_nextPk]
      exact keysOk_mono h1 (Nat.le_succ _)
    · rw [transferCreate_expenses, transferCreate_nextPk]
      exact keysOk_mono h2 (Nat.le_succ _)
    · rw [transferCreate_transfers, transferCreate_nextPk]
      exact keysOk_append row h3
  | incomeUpdate pk row =>
    show Wf (incomeUpdate db pk row)
    cases hl : lookupRow db.incomes pk with
    | none => rw [incomeUpdate_eq_none db pk row hl]; exact ⟨h1, h2, h3⟩
    | some oldRow =>
      refine ⟨?_, ?_, ?_⟩
      · rw [incomeUpdate_incomes_some db pk row oldRow hl, incomeUpdate_nextPk]
        exact keysOk_setRow pk row h1
      · rw [incomeUpdate_expenses, incomeUpdate_nextPk]
        exact h2
      · rw [incomeUpdate_transfers, incomeUpdate_nextPk]
        exact h3
  | expenseUpdate pk row =>
    show Wf (expenseUpdate db pk row)
    cases hl : lookupRow db.expenses pk with
    | none => rw [expenseUpdate_eq_none db pk row hl]; exact ⟨h1, h2, h3⟩
    | some oldRow =>
      refine ⟨?_, ?_, ?_⟩
      · rw [expenseUpdate_incomes, expenseUpdate_nextPk]
        exact h1
      · rw [expenseUpdate_expenses_some db pk row oldRow hl, expenseUpdate_nextPk]
        exact keysOk_setRow pk row h2
      · rw [expenseUpdate_transfers, expenseUpdate_nextPk]
        exact h3
  | transferUpdate pk row =>
    show Wf (transferUpdate db pk row)
    cases hl : lookupRow db.transfers pk with
    | none => rw [transferUpdate_eq_none db pk row hl]; exact ⟨h1, h2, h3⟩
    | some oldRow =>
      refine ⟨?_, ?_, ?_⟩
      · rw [transferUpdate_incomes, transferUpdate_nextPk]
        exact h1
      · rw [transferUpdate_expenses, transferUpdate_nextPk]
        exact h2
      · rw [transferUpdate_transfers_some db pk row oldRow hl, transferUpdate_nextPk]
        exact keysOk_setRow pk row h3
  | incomeDelete pk =>
    show Wf (incomeDelete db pk)
    cases hl : lookupRow db.incomes pk with
    | none => rw [incomeDelete_eq_none db pk hl]; exact ⟨h1, h2, h3⟩
    | some row =>
      refine ⟨?_, ?_, ?_⟩
      · rw [incomeDelete_incomes_some db pk row hl, incomeDelete_nextPk]
        exact keysOk_eraseRow pk h1
      · rw [incomeDelete_expenses, incomeDelete_nextPk]
        exact h2
      · rw [incomeDelete_transfers, incomeDelete_nextPk]
        exact h3
  | expenseDelete pk =>
    show Wf (expenseDelete db pk)
    cases hl : lookupRow db.expenses pk with
    | none => rw [expenseDelete_eq_none db pk hl]; exact ⟨h1, h2, h3⟩
    | some row =>
      refine ⟨?_, ?_, ?_⟩
      · rw [expenseDelete_incomes, expenseDelete_nextPk]
        exact h1
      · rw [expenseDelete_expenses_some db pk row hl, expenseDelete_nextPk]
        exact keysOk_eraseRow pk h2
      · rw [expenseDelete_transfers, expenseDelete_nextPk]
        exact h3
  | transferDelete pk =>
    show Wf (transferDelete db pk)
    cases hl : lookupRow db.transfers pk with
    | none => rw [transferDelete_eq_none db pk hl]; exact ⟨h1, h2, h3⟩
    | some row =>
      refine ⟨?_, ?_, ?_⟩
      · rw [transferDelete_incomes, transferDelete_nextPk]
        exact h1
      · rw [transferDelete_expenses, transferDelete_nextPk]
        exact h2
      · rw [transferDelete_transfers_some db pk row hl, transferDelete_nextPk]
        exact keysOk_eraseRow pk h3

theorem applyOp_invariant (db : Db) (op : Op) (hwf : Wf db) (hinv : balanceInvariant db)
    (hgood : goodOp db op = true) : balanceInvariant (applyOp db op) := by
  cases op with
  | incomeCreate row => exact incomeCreate_invariant db row hinv
  | expenseCreate row => exact expenseCreate_invariant db row hinv
  | transferCreate row => exact transferCreate_invariant db row hinv
  | incomeUpdate pk row => exact incomeUpdate_invariant db pk row hwf.1.1 hgood hinv
  | expenseUpdate pk row => exact expenseUpdate_invariant db pk row hwf.2.1.1 hgood hinv
  | transferUpdate pk row => exact transferUpdate_invariant db pk row hwf.2.2.1 hinv
  | incomeDelete pk => exact incomeDelete_invariant db pk hwf.1.1 hinv
  | expenseDelete pk => exact expenseDelete_invariant db pk hwf.2.1.1 hinv
  | transferDelete pk => exact transferDelete_invariant db pk hwf.2.2.1 hinv

/-! ## Claim C1 -/

/-- C1 (amended): starting from a well-keyed state satisfying the balance
invariant, any sequence of create/update/delete operations on Income,
Expense and Transfer rows preserves `A.balance = Σincome(A) − Σexpense(A)
+ Σtransfers_in(A) − Σtransfers_out(A)` for every account A — provided
every Income/Expense update involved keeps the row attached to an account
(non-null `bank_account` both before and after the update); creates,
deletes and all Transfer operations are unrestricted. -/
theorem c1_balance_invariant (db : Db) (ops : List Op)
    (hwf : Wf db) (hinv : balanceInvariant db) (hgood : goodOps db ops = true) :
    balanceInvariant (applyOps db ops) := by
  induction ops generalizing db with
  | nil => exact hinv
  | cons op rest ih =>
    simp only [goodOps, Bool.and_eq_true] at hgood
    exact ih (applyOp db op) (applyOp_wf db op hwf)
      (applyOp_invariant db op hwf hinv hgood.1) hgood.2

/-- C1 counterexample: from a valid one-account state, create an Income of
100 on account 1 and then update it so that its `bank_account` becomes
null.  `Income.save` takes no balance action when `self.bank_account` is
None, so the stored balance stays 100 while every ledger sum for account 1
is 0: the invariant claimed for arbitrary update sequences is violated. -/
theorem c1_counterexample :
    Wf dbOneAccount ∧ balanceInvariant dbOneAccount ∧
      ¬ balanceInvariant (applyOps dbOneAccount
        [Op.incomeCreate ⟨some 1, none, 100, 5⟩, Op.incomeUpdate 2 ⟨none, none, 100, 5⟩]) := by
  decide

/-- Witness: the amended C1 theorem applied to a concrete state and a
concrete attached operation sequence. -/
theorem c1_balance_invariant_witness :
    balanceInvariant (applyOps dbOneAccount
      [Op.incomeCreate ⟨some 1, none, 100, 5⟩,
       Op.expenseCreate ⟨some 1, none, 30, 6⟩,
       Op.incomeUpdate 2 ⟨some 1, none, 150, 5⟩]) :=
  c1_balance_invariant dbOneAccount _ (by decide) (by decide) (by decide)

/-! ## Reading balances through updates -/

theorem lookupRow_updateBalance (db : Db) (pk : Pk) (d : Money) (c : Pk) :
    lookupRow (updateBalance db pk d).accounts c
      = (lookupRow db.accounts c).map
          (fun r => if c = pk then { r with balance := r.balance + d } else r) := by
  show lookupRow (db.accounts.map (fun p =>
      (p.1, (fun k r => if k = pk then { r with balance := r.balance + d } else r) p.1 p.2))) c = _
  exact lookupRow_map (fun k r => if k = pk then { r with balance := r.balance + d } else r)
    db.accounts c

theorem lookupBalance_updateBalance (db : Db) (pk : Pk) (d : Money) (c : Pk) :
    lookupBalance (updateBalance db pk d) c
      = (lookupBalance db c).map (fun b => if c = pk then b + d else b) := by
  unfold lookupBalance
  rw [lookupRow_updateBalance]
  cases lookupRow db.accounts c with
  | none => rfl
  | some r => by_cases h : c = pk <;> simp [h]

theorem lookupBalance_updateBalance_self (db : Db) (pk : Pk) (d : Money) :
    lookupBalance (updateBalance db pk d) pk = (lookupBalance db pk).map (fun b => b + d) := by
  rw [lookupBalance_updateBalance]
  cases lookupBalance db pk with
  | none => rfl
  | some b => simp

theorem lookupBalance_updateBalance_ne (db : Db) (pk : Pk) (d : Money) (c : Pk) (h : c ≠ pk) :
    lookupBalance (updateBalance db pk d) c = lookupBalance db c := by
  rw [lookupBalance_updateBalance]
  cases lookupBalance db c with
  | none => rfl
  | some b => simp [h]

theorem lookupBalance_set_incomes (db : Db) (l : Table TxRow) (c : Pk) :
    lookupBalance { db with incomes := l } c = lookupBalance db c := rfl

theorem lookupBalance_set_expenses (db : Db) (l : Table TxRow) (c : Pk) :
    lookupBalance { db with expenses := l } c = lookupBalance db c := rfl

theorem lookupBalance_set_transfers (db : Db) (l : Table TransferRow) (c : Pk) :
    lookupBalance { db with transfers := l } c = lookupBalance db c := rfl

/-! ## Claim C3 -/

/-- C3: when an Income or Expense update changes the referenced account from
`a` to a different account `b`, the old effect is fully reversed against
`a` (Income: −old amount; Expense: +old amount) and the new effect fully
applied against `b` (Income: +new amount; Expense: −new amount); every
third account's balance is untouched. -/
theorem c3_account_change (db : Db) (pk : Pk) (newRow : TxRow) (a b : Pk)
    (hnew : newRow.bank_account = some b) (hab : a ≠ b) :
    (∀ oldRow, lookupRow db.incomes pk = some oldRow → oldRow.bank_account = some a →
      lookupBalance (incomeUpdate db pk newRow) a
          = (lookupBalance db a).map (fun v => v - oldRow.amount) ∧
        lookupBalance (incomeUpdate db pk newRow) b
          = (lookupBalance db b).map (fun v => v + newRow.amount) ∧
        ∀ c, c ≠ a → c ≠ b →
          lookupBalance (incomeUpdate db pk newRow) c = lookupBalance db c) ∧
    (∀ oldRow, lookupRow db.expenses pk = some oldRow → oldRow.bank_account = some a →
      lookupBalance (expenseUpdate db pk newRow) a
          = (lookupBalance db a).map (fun v => v + oldRow.amount) ∧
        lookupBalance (expenseUpdate db pk newRow) b
          = (lookupBalance db b).map (fun v => v - newRow.amount) ∧
        ∀ c, c ≠ a → c ≠ b →
          lookupBalance (expenseUpdate db pk newRow) c = lookupBalance db c) := by
  constructor
  · intro oldRow hl hold
    have hd : incomeUpdate db pk newRow
        = updateBalance (updateBalance { db with incomes := setRow db.incomes pk newRow } a (- oldRow.amount)) b newRow.amount := by
      simp only [incomeUpdate, hl, hnew, hold]
      rw [if_pos hab]
    refine ⟨?_, ?_, ?_⟩
    · rw [hd, lookupBalance_updateBalance_ne _ _ _ _ hab,
        lookupBalance_updateBalance_self, lookupBalance_set_incomes]
      cases lookupBalance db a with
      | none => rfl
      | some v => simp [sub_eq_add_neg]
    · rw [hd, lookupBalance_updateBalance_self,
        lookupBalance_updateBalance_ne _ _ _ _ (Ne.symm hab), lookupBalance_set_incomes]
    · intro c hca hcb
      rw [hd, lookupBalance_updateBalance_ne _ _ _ _ hcb,
        lookupBalance_updateBalance_ne _ _ _ _ hca, lookupBalance_set_incomes]
  · intro oldRow hl hold
    have hd : expenseUpdate db pk newRow
        = updateBalance (updateBalance { db with expenses := setRow db.expenses pk newRow } a oldRow.amount) b (- newRow.amount) := by
      simp only [expenseUpdate, hl, hnew, hold]
      rw [if_pos hab]
    refine ⟨?_, ?_, ?_⟩
    · rw [hd, lookupBalance_updateBalance_ne _ _ _ _ hab,
        lookupBalance_updateBalance_self, lookupBalance_set_expenses]
    · rw [hd, lookupBalance_updateBalance_self,
        lookupBalance_updateBalance_ne _ _ _ _ (Ne.symm hab), lookupBalance_set_expenses]
      cases lookupBalance db b with
      | none => rfl
      | some v => simp [sub_eq_add_neg]
    · intro c hca hcb
      rw [hd, lookupBalance_updateBalance_ne _ _ _ _ hcb,
        lookupBalance_updateBalance_ne _ _ _ _ hca, lookupBalance_set_expenses]

/-- Witness for C3: the spec's own example — an Income of 200 created on
account 1 (balance 0 → 200) and then retargeted to account 2 leaves
account 1 back at 0 and account 2 at 200. -/
theorem c3_account_change_witness :
    lookupBalance (incomeUpdate (incomeCreate dbTwoAccounts ⟨some 1, none, 200, 0⟩) 3
        ⟨some 2, none, 200, 0⟩) 1 = some 0 ∧
    lookupBalance (incomeUpdate (incomeCreate dbTwoAccounts ⟨some 1, none, 200, 0⟩) 3
        ⟨some 2, none, 200, 0⟩) 2 = some 200 := by
  have h := (c3_account_change (incomeCreate dbTwoAccounts ⟨some 1, none, 200, 0⟩) 3
    ⟨some 2, none, 200, 0⟩ 1 2 rfl (by decide)).1 ⟨some 1, none, 200, 0⟩ (by decide) rfl
  exact ⟨h.1.trans (by decide), h.2.1.trans (by decide)⟩

/-! ## Claim C4 -/

/-- C4: when a ledger entry's update changes only the amount (its account
references unchanged), the balance is adjusted by the signed delta
`new − old` on the unchanged account(s): an Expense update subtracts the
delta from its account; a Transfer update subtracts the delta from the
source and adds it to the destination; all other accounts are untouched. -/
theorem c4_amount_delta (db : Db) (pk : Pk) :
    (∀ newRow oldRow a, lookupRow db.expenses pk = some oldRow →
      oldRow.bank_account = some a → newRow.bank_account = some a →
      lookupBalance (expenseUpdate db pk newRow) a
          = (lookupBalance db a).map (fun v => v - (newRow.amount - oldRow.amount)) ∧
        ∀ c, c ≠ a → lookupBalance (expenseUpdate db pk newRow) c = lookupBalance db c) ∧
    (∀ newRow oldRow, lookupRow db.transfers pk = some oldRow →
      oldRow.from_account = newRow.from_account → oldRow.to_account = newRow.to_account →
      newRow.from_account ≠ newRow.to_account →
      lookupBalance (transferUpdate db pk newRow) newRow.from_account
          = (lookupBalance db newRow.from_account).map
              (fun v => v - (newRow.amount - oldRow.amount)) ∧
        lookupBalance (transferUpdate db pk newRow) newRow.to_account
          = (lookupBalance db newRow.to_account).map
              (fun v => v + (newRow.amount - oldRow.amount)) ∧
        ∀ c, c ≠ newRow.from_account → c ≠ newRow.to_account →
          lookupBalance (transferUpdate db pk newRow) c = lookupBalance db c) := by
  constructor
  · intro newRow oldRow a hl hold hnew
    by_cases hamt : oldRow.amount ≠ newRow.amount
    · have hd : expenseUpdate db pk newRow
          = updateBalance { db with expenses := setRow db.expenses pk newRow } a (- (newRow.amount - oldRow.amount)) := by
        simp only [expenseUpdate, hl, hnew, hold]
        rw [if_neg (fun h : a ≠ a => h rfl), if_pos hamt]
      refine ⟨?_, ?_⟩
      · rw [hd, lookupBalance_updateBalance_self, lookupBalance_set_expenses]
        cases lookupBalance db a with
        | none => rfl
        | some v => simp [sub_eq_add_neg]
      · intro c hca
        rw [hd, lookupBalance_updateBalance_ne _ _ _ _ hca, lookupBalance_set_expenses]
    · push_neg at hamt
      have hd : expenseUpdate db pk newRow = { db with expenses := setRow db.expenses pk newRow } := by
        simp only [expenseUpdate, hl, hnew, hold]
        rw [if_neg (fun h : a ≠ a => h rfl),
          if_neg (fun h : oldRow.amount ≠ newRow.amount => h hamt)]
      refine ⟨?_, ?_⟩
      · rw [hd, lookupBalance_set_expenses, hamt]
        cases lookupBalance db a with
        | none => rfl
        | some v => simp
      · intro c _
        rw [hd, lookupBalance_set_expenses]
  · intro newRow oldRow hl hfrom hto hft
    have hnc : ¬ (oldRow.from_account ≠ newRow.from_account
        ∨ oldRow.to_account ≠ newRow.to_account) := by
      push_neg
      exact ⟨hfrom, hto⟩
    by_cases hamt : oldRow.amount ≠ newRow.amount
    · have hd : transferUpdate db pk newRow
          = updateBalance (updateBalance { db with transfers := setRow db.transfers pk newRow } newRow.from_account (- (newRow.amount - oldRow.amount))) newRow.to_account (newRow.amount - oldRow.amount) := by
        simp only [transferUpdate, hl]
        rw [if_neg hnc, if_pos hamt]
      refine ⟨?_, ?_, ?_⟩
      · rw [hd, lookupBalance_updateBalance_ne _ _ _ _ hft,
          lookupBalance_updateBalance_self, lookupBalance_set_transfers]
        cases lookupBalance db newRow.from_account with
        | none => rfl
        | some v => simp [sub_eq_add_neg]
      · rw [hd, lookupBalance_updateBalance_self,
          lookupBalance_updateBalance_ne _ _ _ _ (Ne.symm hft), lookupBalance_set_transfers]
      · intro c hcf hct
        rw [hd, lookupBalance_updateBalance_ne _ _ _ _ hct,
          lookupBalance_updateBalance_ne _ _ _ _ hcf, lookupBalance_set_transfers]
    · push_neg at hamt
      have hd : transferUpdate db pk newRow
          = { db with transfers := setRow db.transfers pk newRow } := by
        simp only [transferUpdate, hl]
        rw [if_neg hnc, if_neg (fun h : oldRow.amount ≠ newRow.amount => h hamt)]
      refine ⟨?_, ?_, ?_⟩
      · rw [hd, lookupBalance_set_transfers, hamt]
        cases lookupBalance db newRow.from_account with
        | none => rfl
        | some v => simp
      · rw [hd, lookupBalance_set_transfers, hamt]
        cases lookupBalance db newRow.to_account with
        | none => rfl
        | some v => simp
      · intro c _ _
        rw [hd, lookupBalance_set_transfers]

/-- Witness for C4: the spec's own example — an Expense of 100 on account 1
holding 1000 (so balance 900) updated to amount 150 leaves the balance at
exactly 850: the update applies the −50 delta. -/
theorem c4_amount_delta_witness :
    lookupBalance (expenseUpdate
        (expenseCreate (incomeCreate dbOneAccount ⟨some 1, none, 1000, 0⟩) ⟨some 1, none, 100, 1⟩)
        3 ⟨some 1, none, 150, 1⟩) 1 = some 850 := by
  have h := ((c4_amount_delta
    (expenseCreate (incomeCreate dbOneAccount ⟨some 1, none, 1000, 0⟩) ⟨some 1, none, 100, 1⟩)
    3).1 ⟨some 1, none, 150, 1⟩ ⟨some 1, none, 100, 1⟩ 1 (by decide) rfl rfl).1
  exact h.trans (by decide)

/-! ## Claim C5 -/

theorem lookupBalance_set_incomes_nextPk (db : Db) (l : Table TxRow) (n : Pk) (c : Pk) :
    lookupBalance { db with incomes := l, nextPk := n } c = lookupBalance db c := rfl

theorem lookupBalance_set_expenses_nextPk (db : Db) (l : Table TxRow) (n : Pk) (c : Pk) :
    lookupBalance { db with expenses := l, nextPk := n } c = lookupBalance db c := rfl

theorem lookupBalance_set_transfers_nextPk (db : Db) (l : Table TransferRow) (n : Pk) (c : Pk) :
    lookupBalance { db with transfers := l, nextPk := n } c = lookupBalance db c := rfl

theorem map_bump_congr (l : Table AccountRow) (e1 e2 : Pk → Money) (h : ∀ a, e1 a = e2 a) :
    l.map (bump e1) = l.map (bump e2) := by
  apply List.map_congr_left
  intro p _
  simp [bump, h p.1]

theorem eraseRow_append_self {α : Type} (l : Table α) (pk : Pk) (v : α)
    (h : pk ∉ l.map Prod.fst) : eraseRow (l ++ [(pk, v)]) pk = l := by
  show (l ++ [(pk, v)]).filter _ = l
  rw [List.filter_append]
  have h2 : [(pk, v)].filter (fun p => !(p.1 == pk)) = [] := by simp
  rw [h2, List.append_nil]
  exact eraseRow_of_not_mem l pk h

/-- C5: create-then-delete is an exact round trip.  Creating an Income of
amount X on account a raises a's balance by X, and immediately deleting it
restores every account balance and the Income table exactly.  Creating a
Transfer moves its amount from the source to the destination, and deleting
it restores every account balance and the Transfer table exactly. -/
theorem c5_round_trip (db : Db) :
    (∀ row : TxRow, (∀ p ∈ db.incomes, p.1 ≠ db.nextPk) →
      (∀ a, row.bank_account = some a →
        lookupBalance (incomeCreate db row) a
          = (lookupBalance db a).map (fun v => v + row.amount)) ∧
      (incomeDelete (incomeCreate db row) db.nextPk).accounts = db.accounts ∧
      (incomeDelete (incomeCreate db row) db.nextPk).incomes = db.incomes) ∧
    (∀ row : TransferRow, (∀ p ∈ db.transfers, p.1 ≠ db.nextPk) →
      row.from_account ≠ row.to_account →
      lookupBalance (transferCreate db row) row.from_account
          = (lookupBalance db row.from_account).map (fun v => v - row.amount) ∧
      lookupBalance (transferCreate db row) row.to_account
          = (lookupBalance db row.to_account).map (fun v => v + row.amount) ∧
      (transferDelete (transferCreate db row) db.nextPk).accounts = db.accounts ∧
      (transferDelete (transferCreate db row) db.nextPk).transfers = db.transfers) := by
  constructor
  · intro row hfresh
    have hnot : db.nextPk ∉ db.incomes.map Prod.fst := by
      intro hm
      obtain ⟨p, hp, he⟩ := List.mem_map.mp hm
      exact hfresh p hp he
    have hl : lookupRow (incomeCreate db row).incomes db.nextPk = some row := by
      rw [incomeCreate_incomes]
      exact lookupRow_append_last _ _ _ hnot
    refine ⟨?_, ?_, ?_⟩
    · intro a hba
      have hd : incomeCreate db row
          = updateBalance { db with incomes := db.incomes ++ [(db.nextPk, row)], nextPk := db.nextPk + 1 } a row.amount := by
        simp only [incomeCreate, hba]
      rw [hd, lookupBalance_updateBalance_self, lookupBalance_set_incomes_nextPk]
    · cases hba : row.bank_account with
      | none =>
        have hdc : incomeCreate db row
            = { db with incomes := db.incomes ++ [(db.nextPk, row)], nextPk := db.nextPk + 1 } := by
          simp only [incomeCreate, hba]
        have hdd : incomeDelete (incomeCreate db row) db.nextPk
            = { incomeCreate db row with
                incomes := eraseRow (incomeCreate db row).incomes db.nextPk } := by
          simp only [incomeDelete, hl, hba]
        rw [hdd, hdc]
      | some a =>
        have hdc : incomeCreate db row
            = updateBalance { db with incomes := db.incomes ++ [(db.nextPk, row)], nextPk := db.nextPk + 1 } a row.amount := by
          simp only [incomeCreate, hba]
        have hdd : incomeDelete (incomeCreate db row) db.nextPk
            = { updateBalance (incomeCreate db row) a (- row.amount) with
                incomes := eraseRow (incomeCreate db row).incomes db.nextPk } := by
          simp only [incomeDelete, hl, hba]
          rfl
        rw [hdd]
        show (updateBalance (incomeCreate db row) a (- row.amount)).accounts = db.accounts
        rw [hdc, updateBalance_accounts, updateBalance_accounts, map_bump_bump]
        refine Eq.trans (map_bump_congr _ _ (fun _ => 0) ?_) (map_bump_zero _)
        intro x
        by_cases h : a = x <;> simp [h]
    · rw [incomeDelete_incomes_some _ _ row hl, incomeCreate_incomes]
      exact eraseRow_append_self _ _ _ hnot
  · intro row hfresh hft
    have hnot : db.nextPk ∉ db.transfers.map Prod.fst := by
      intro hm
      obtain ⟨p, hp, he⟩ := List.mem_map.mp hm
      exact hfresh p hp he
    have hl : lookupRow (transferCreate db row).transfers db.nextPk = some row := by
      rw [transferCreate_transfers]
      exact lookupRow_append_last _ _ _ hnot
    refine ⟨?_, ?_, ?_, ?_⟩
    · show lookupBalance (updateBalance (updateBalance _ row.from_account (- row.amount))
        row.to_account row.amount) row.from_account = _
      rw [lookupBalance_updateBalance_ne _ _ _ _ hft, lookupBalance_updateBalance_self,
        lookupBalance_set_transfers_nextPk]
      cases lookupBalance db row.from_account with
      | none => rfl
      | some v => simp [sub_eq_add_neg]
    · show lookupBalance (updateBalance (updateBalance _ row.from_account (- row.amount))
        row.to_account row.amount) row.to_account = _
      rw [lookupBalance_updateBalance_self,
        lookupBalance_updateBalance_ne _ _ _ _ (Ne.symm hft), lookupBalance_set_transfers_nextPk]
    · have hdd : transferDelete (transferCreate db row) db.nextPk
          = { updateBalance (updateBalance (transferCreate db row) row.from_account row.amount)
                row.to_account (- row.amount) with
              transfers := eraseRow (transferCreate db row).transfers db.nextPk } := by
        simp only [transferDelete, hl]
        rfl
      rw [hdd]
      show (updateBalance (updateBalance (transferCreate db row) row.from_account row.amount)
        row.to_account (- row.amount)).accounts = db.accounts
      show (updateBalance (updateBalance (updateBalance (updateBalance
        { db with transfers := db.transfers ++ [(db.nextPk, row)], nextPk := db.nextPk + 1 }
        row.from_account (- row.amount)) row.to_account row.amount)
        row.from_account row.amount) row.to_account (- row.amount)).accounts = db.accounts
      rw [updateBalance_accounts, updateBalance_accounts, updateBalance_accounts,
        updateBalance_accounts, map_bump_bump, map_bump_bump, map_bump_bump]
      refine Eq.trans (map_bump_congr _ _ (fun _ => 0) ?_) (map_bump_zero _)
      intro x
      by_cases hf : row.from_account = x <;> by_cases ht : row.to_account = x <;>
        simp [hf, ht]
    · rw [transferDelete_transfers_some _ _ row hl, transferCreate_transfers]
      exact eraseRow_append_self _ _ _ hnot

/-- Witness for C5: the spec's own example — transferring 300 from account 1
(at 500) to account 2 (at 100) yields balances 200 and 400, and deleting
that transfer restores the accounts table (hence balances 500 and 100)
exactly. -/
theorem c5_round_trip_witness :
    lookupBalance (transferCreate
        (applyOps dbTwoAccounts [Op.incomeCreate ⟨some 1, none, 500, 0⟩,
          Op.incomeCreate ⟨some 2, none, 100, 0⟩]) ⟨1, 2, 300, 1⟩) 1 = some 200 ∧
    lookupBalance (transferCreate
        (applyOps dbTwoAccounts [Op.incomeCreate ⟨some 1, none, 500, 0⟩,
          Op.incomeCreate ⟨some 2, none, 100, 0⟩]) ⟨1, 2, 300, 1⟩) 2 = some 400 ∧
    (transferDelete (transferCreate
        (applyOps dbTwoAccounts [Op.incomeCreate ⟨some 1, none, 500, 0⟩,
          Op.incomeCreate ⟨some 2, none, 100, 0⟩]) ⟨1, 2, 300, 1⟩)
      (applyOps dbTwoAccounts [Op.incomeCreate ⟨some 1, none, 500, 0⟩,
        Op.incomeCreate ⟨some 2, none, 100, 0⟩]).nextPk).accounts
      = (applyOps dbTwoAccounts [Op.incomeCreate ⟨some 1, none, 500, 0⟩,
          Op.incomeCreate ⟨some 2, none, 100, 0⟩]).accounts := by
  have h := (c5_round_trip (applyOps dbTwoAccounts [Op.incomeCreate ⟨some 1, none, 500, 0⟩,
    Op.incomeCreate ⟨some 2, none, 100, 0⟩])).2 ⟨1, 2, 300, 1⟩ (by decide) (by decide)
  exact ⟨h.1.trans (by decide), h.2.1.trans (by decide), h.2.2.1⟩

/-! ## Claim C7 -/

/-- C7: the reconciliation job recomputes every active account's balance
from the ledger alone (ignoring the stored value), its reported correction
count is exactly the number of active accounts whose stored balance
differs from the recomputed one, and it is idempotent: a second run with
no intervening mutations reports zero corrections. -/
theorem c7_reconciliation (db : Db) :
    (∀ p ∈ (recalculateBalances db).1.accounts, p.2.is_active = true →
      p.2.balance = computedBalance db p.1) ∧
    (recalculateBalances db).2 = (db.accounts.filter (fun p => needsFix db p)).length ∧
    (recalculateBalances (recalculateBalances db).1).2 = 0 := by
  have hcb : ∀ x, computedBalance (recalculateBalances db).1 x = computedBalance db x :=
    fun _ => rfl
  refine ⟨?_, rfl, ?_⟩
  · intro p hp hact
    obtain ⟨q, hq, rfl⟩ := List.mem_map.mp hp
    by_cases h : needsFix db q = true
    · rw [if_pos h]
    · rw [if_neg h] at hact ⊢
      simp only [needsFix, Bool.not_eq_true] at h
      rw [hact] at h
      simpa using h
  · show ((recalculateBalances db).1.accounts.filter
      (fun p => needsFix (recalculateBalances db).1 p)).length = 0
    rw [List.length_eq_zero, List.filter_eq_nil_iff]
    intro p hp
    obtain ⟨q, hq, rfl⟩ := List.mem_map.mp hp
    dsimp only
    by_cases h : needsFix db q = true
    · rw [if_pos h]
      unfold needsFix
      rw [hcb]
      simp
    · rw [if_neg h]
      unfold needsFix
      rw [hcb]
      simpa [needsFix] using h

/-- Witness for C7: a drifted account (stored 77, ledger 100) — after one
reconciliation run, the second run reports zero corrections. -/
theorem c7_reconciliation_witness :
    (recalculateBalances (recalculateBalances dbDrift).1).2 = 0 :=
  (c7_reconciliation dbDrift).2.2

/-! ## Claim C8 -/

/-- C8: a transfer whose from-account equals its to-account fails
validation in `TransferForm.clean` (whichever check fires first raises),
so the create view performs no storage write: the database — in
particular every account balance — is unchanged. -/
theorem c8_same_account_rejected (db : Db) (a : Pk) (d : Day) (amount : Money) :
    (∃ msg, transferFormClean db none (some a) (some a) d amount = Except.error msg) ∧
    transferCreateView db (some a) (some a) d amount = db := by
  have hclean : ∃ msg,
      transferFormClean db none (some a) (some a) d amount = Except.error msg := by
    unfold transferFormClean
    have hsame : (if a = a then (throw "Cannot transfer to the same account."
        : Except String Unit) else pure ()) = throw "Cannot transfer to the same account." :=
      if_pos rfl
    cases hacc : lookupRow db.accounts a with
    | none =>
      refine ⟨"Cannot transfer to the same account.", ?_⟩
      simp only [Option.some_bind, hacc]
      rfl
    | some acc =>
      cases hsd : acc.account_setup_date with
      | none =>
        refine ⟨"Cannot transfer to the same account.", ?_⟩
        simp only [Option.some_bind, hacc, hsd]
        rfl
      | some sd =>
        by_cases hlt : d < sd
        · refine ⟨"Transfer date cannot be before the from account setup date.", ?_⟩
          simp only [Option.some_bind, hacc, hsd]
          rw [if_pos hlt]
          rfl
        · refine ⟨"Cannot transfer to the same account.", ?_⟩
          simp only [Option.some_bind, hacc, hsd]
          rw [if_neg hlt, if_neg hlt]
          rfl
  refine ⟨hclean, ?_⟩
  obtain ⟨msg, hmsg⟩ := hclean
  unfold transferCreateView
  rw [hmsg]

/-! ## Claims C2 and C10 -/

theorem lookupRow_setBalance (db : Db) (pk : Pk) (v : Money) (c : Pk) :
    lookupRow (setBalance db pk v).accounts c
      = (lookupRow db.accounts c).map (fun r => if c = pk then { r with balance := v } else r) := by
  show lookupRow (db.accounts.map (fun p =>
      (p.1, (fun k r => if k = pk then { r with balance := v } else r) p.1 p.2))) c = _
  exact lookupRow_map (fun k r => if k = pk then { r with balance := v } else r) db.accounts c

theorem incomeCreate_accounts_some (db : Db) (row : TxRow) (a : Pk)
    (hba : row.bank_account = some a) :
    (incomeCreate db row).accounts = (updateBalance db a row.amount).accounts := by
  simp only [incomeCreate, hba]
  rfl

/-- The get-or-create of the "Opening Balance" category returns a key whose
row has the requested name and type income, and touches no other table. -/
theorem getOrCreateIncomeCategory_spec (db : Db) (nm : String)
    (hcat : keysOk db.categories db.nextPk) :
    lookupRow (getOrCreateIncomeCategory db nm).2.categories
        (getOrCreateIncomeCategory db nm).1 = some ⟨nm, "income"⟩ ∧
    (getOrCreateIncomeCategory db nm).2.accounts = db.accounts ∧
    (getOrCreateIncomeCategory db nm).2.incomes = db.incomes ∧
    (getOrCreateIncomeCategory db nm).2.expenses = db.expenses ∧
    (getOrCreateIncomeCategory db nm).2.transfers = db.transfers := by
  unfold getOrCreateIncomeCategory
  cases hf : db.categories.find? (fun p => p.2.name == nm) with
  | none =>
    dsimp only
    refine ⟨?_, rfl, rfl, rfl, rfl⟩
    refine lookupRow_append_last _ _ _ (fun hm => ?_)
    obtain ⟨p, hp, he⟩ := List.mem_map.mp hm
    exact absurd (hcat.2 p hp) (by rw [he]; exact lt_irrefl _)
  | some kc =>
    obtain ⟨k, cat⟩ := kc
    have hmem : (k, cat) ∈ db.categories := List.mem_of_find?_eq_some hf
    have hname : cat.name = nm := by
      have hp := List.find?_some hf
      simpa using hp
    dsimp only
    by_cases ht : cat.category_type ≠ "income"
    · rw [if_pos ht]
      refine ⟨?_, rfl, rfl, rfl, rfl⟩
      have hm2 : (k, ({ cat with category_type := "income" } : CategoryRow))
          ∈ setRow db.categories k { cat with category_type := "income" } := by
        have hmap := List.mem_map_of_mem
          (fun p => if p.1 = k then (k, ({ cat with category_type := "income" } : CategoryRow))
            else p) hmem
        have he : (fun p => if p.1 = k then (k, ({ cat with category_type := "income" } : CategoryRow))
            else p) (k, cat) = (k, ({ cat with category_type := "income" } : CategoryRow)) := by
          simp
        rw [he] at hmap
        exact hmap
      rw [lookupRow_of_mem (by rw [keys_setRow]; exact hcat.1) hm2]
      cases cat
      simp_all
    · rw [if_neg ht]
      push_neg at ht
      refine ⟨?_, rfl, rfl, rfl, rfl⟩
      rw [lookupRow_of_mem hcat.1 hmem]
      cases cat
      simp_all

/-- C2: creating an account with non-zero opening balance `b` and setup date
`d` leaves exactly one Income row on the new account — referencing the
"Opening Balance" income category (get-or-created, forced to type income),
with amount `b` and date `d` — and the stored account row ends at balance
`b` with opening balance `b`: the balance is forced to zero and the
Income's own create adds `b` back, with no double booking. -/
theorem c2_opening_bootstrap (db : Db) (b : Money) (d : Day)
    (hb : b ≠ 0)
    (hcat : keysOk db.categories db.nextPk)
    (hfreshAcc : ∀ p ∈ db.accounts, p.1 ≠ db.nextPk)
    (hfreshInc : ∀ p ∈ db.incomes, p.2.bank_account ≠ some db.nextPk) :
    ∃ ipk catPk,
      lookupRow (bankAccountCreate db b (some d)).2.categories catPk
          = some ⟨"Opening Balance", "income"⟩ ∧
      (bankAccountCreate db b (some d)).2.incomes.filter
          (fun p => p.2.bank_account == some (bankAccountCreate db b (some d)).1)
        = [(ipk, ⟨some (bankAccountCreate db b (some d)).1, some catPk, b, d⟩)] ∧
      lookupRow (bankAccountCreate db b (some d)).2.accounts (bankAccountCreate db b (some d)).1
        = some ⟨b, b, some d, true⟩ := by
  have hd : bankAccountCreate db b (some d)
      = (db.nextPk,
         incomeCreate
           (setBalance (getOrCreateIncomeCategory
               { db with accounts := db.accounts ++ [(db.nextPk, ⟨b, b, some d, true⟩)], nextPk := db.nextPk + 1 }
               "Opening Balance").2 db.nextPk 0)
           ⟨some db.nextPk,
            some (getOrCreateIncomeCategory
               { db with accounts := db.accounts ++ [(db.nextPk, ⟨b, b, some d, true⟩)], nextPk := db.nextPk + 1 }
               "Opening Balance").1, b, d⟩) := by
    simp only [bankAccountCreate, if_pos hb]
  have hcat1 : keysOk ({ db with accounts := db.accounts ++ [(db.nextPk, (⟨b, b, some d, true⟩ : AccountRow))], nextPk := db.nextPk + 1 } : Db).categories
      ({ db with accounts := db.accounts ++ [(db.nextPk, (⟨b, b, some d, true⟩ : AccountRow))], nextPk := db.nextPk + 1 } : Db).nextPk := by
    exact keysOk_mono hcat (Nat.le_succ _)
  have hspec := getOrCreateIncomeCategory_spec
    { db with accounts := db.accounts ++ [(db.nextPk, ⟨b, b, some d, true⟩)], nextPk := db.nextPk + 1 }
    "Opening Balance" hcat1
  rw [hd]
  dsimp only
  refine ⟨(setBalance (getOrCreateIncomeCategory
      { db with accounts := db.accounts ++ [(db.nextPk, ⟨b, b, some d, true⟩)], nextPk := db.nextPk + 1 }
      "Opening Balance").2 db.nextPk 0).nextPk,
    (getOrCreateIncomeCategory
      { db with accounts := db.accounts ++ [(db.nextPk, ⟨b, b, some d, true⟩)], nextPk := db.nextPk + 1 }
      "Opening Balance").1, ?_, ?_, ?_⟩
  · rw [incomeCreate_categories]
    exact hspec.1
  · rw [incomeCreate_incomes]
    rw [List.filter_append]
    have hold : ((setBalance (getOrCreateIncomeCategory
        { db with accounts := db.accounts ++ [(db.nextPk, ⟨b, b, some d, true⟩)], nextPk := db.nextPk + 1 }
        "Opening Balance").2 db.nextPk 0).incomes).filter
          (fun p => p.2.bank_account == some db.nextPk) = [] := by
      rw [List.filter_eq_nil_iff]
      intro p hp
      have hp2 : p ∈ db.incomes := by
        have he : (setBalance (getOrCreateIncomeCategory
            { db with accounts := db.accounts ++ [(db.nextPk, ⟨b, b, some d, true⟩)], nextPk := db.nextPk + 1 }
            "Opening Balance").2 db.nextPk 0).incomes = db.incomes := by
          show (getOrCreateIncomeCategory
            { db with accounts := db.accounts ++ [(db.nextPk, ⟨b, b, some d, true⟩)], nextPk := db.nextPk + 1 }
            "Opening Balance").2.incomes = db.incomes
          exact hspec.2.2.1
        rw [he] at hp
        exact hp
      simp only [beq_iff_eq]
      exact hfreshInc p hp2
    rw [hold, List.nil_append]
    simp
  · rw [show (incomeCreate (setBalance (getOrCreateIncomeCategory
        { db with accounts := db.accounts ++ [(db.nextPk, ⟨b, b, some d, true⟩)], nextPk := db.nextPk + 1 }
        "Opening Balance").2 db.nextPk 0)
        ⟨some db.nextPk, some (getOrCreateIncomeCategory
          { db with accounts := db.accounts ++ [(db.nextPk, ⟨b, b, some d, true⟩)], nextPk := db.nextPk + 1 }
          "Opening Balance").1, b, d⟩).accounts
      = (updateBalance (setBalance (getOrCreateIncomeCategory
          { db with accounts := db.accounts ++ [(db.nextPk, ⟨b, b, some d, true⟩)], nextPk := db.nextPk + 1 }
          "Opening Balance").2 db.nextPk 0) db.nextPk b).accounts from
      incomeCreate_accounts_some _ _ _ rfl]
    rw [lookupRow_updateBalance, lookupRow_setBalance, hspec.2.1]
    dsimp only
    rw [lookupRow_append_last _ _ _ (fun hm => by
      obtain ⟨p, hp, he⟩ := List.mem_map.mp hm
      exact hfreshAcc p hp he)]
    simp

/-- C10: creating an account with a non-zero balance but no setup date
creates no Opening Balance Income (the ledger tables and categories are
untouched), while the stored account row keeps the entered non-zero
balance — a balance not backed by any ledger entry. -/
theorem c10_no_setup_no_marker (db : Db) (b : Money) (hb : b ≠ 0)
    (hfreshAcc : ∀ p ∈ db.accounts, p.1 ≠ db.nextPk) :
    (bankAccountCreate db b none).2.incomes = db.incomes ∧
    (bankAccountCreate db b none).2.expenses = db.expenses ∧
    (bankAccountCreate db b none).2.transfers = db.transfers ∧
    (bankAccountCreate db b none).2.categories = db.categories ∧
    lookupRow (bankAccountCreate db b none).2.accounts (bankAccountCreate db b none).1
      = some ⟨b, b, none, true⟩ := by
  have hd : bankAccountCreate db b none
      = (db.nextPk, { db with accounts := db.accounts ++ [(db.nextPk, ⟨b, b, none, true⟩)], nextPk := db.nextPk + 1 }) := by
    simp only [bankAccountCreate, if_pos hb]
  rw [hd]
  refine ⟨rfl, rfl, rfl, rfl, ?_⟩
  exact lookupRow_append_last _ _ _ (fun hm => by
    obtain ⟨p, hp, he⟩ := List.mem_map.mp hm
    exact hfreshAcc p hp he)

/-- Witness for C2: from the empty single-account-free state, creating an
account with opening balance 1000 and setup date 7 yields exactly one
Opening Balance Income row of amount 1000 dated 7 and a stored balance of
1000. -/
theorem c2_opening_bootstrap_witness :
    ∃ ipk catPk,
      lookupRow (bankAccountCreate dbEmpty 1000 (some 7)).2.categories catPk
          = some ⟨"Opening Balance", "income"⟩ ∧
      (bankAccountCreate dbEmpty 1000 (some 7)).2.incomes.filter
          (fun p => p.2.bank_account == some (bankAccountCreate dbEmpty 1000 (some 7)).1)
        = [(ipk, ⟨some (bankAccountCreate dbEmpty 1000 (some 7)).1, some catPk, 1000, 7⟩)] ∧
      lookupRow (bankAccountCreate dbEmpty 1000 (some 7)).2.accounts
          (bankAccountCreate dbEmpty 1000 (some 7)).1
        = some ⟨1000, 1000, some 7, true⟩ :=
  c2_opening_bootstrap dbEmpty 1000 7 (by decide) (by decide) (by decide) (by decide)

/-- Witness for C10: the same creation without a setup date leaves the
ledger empty and the stored balance at the entered 1000. -/
theorem c10_no_setup_no_marker_witness :
    (bankAccountCreate dbEmpty 1000 none).2.incomes = dbEmpty.incomes ∧
    (bankAccountCreate dbEmpty 1000 none).2.expenses = dbEmpty.expenses ∧
    (bankAccountCreate dbEmpty 1000 none).2.transfers = dbEmpty.transfers ∧
    (bankAccountCreate dbEmpty 1000 none).2.categories = dbEmpty.categories ∧
    lookupRow (bankAccountCreate dbEmpty 1000 none).2.accounts
        (bankAccountCreate dbEmpty 1000 none).1
      = some ⟨1000, 1000, none, true⟩ :=
  c10_no_setup_no_marker dbEmpty 1000 (by decide) (by decide)

/-! ## Claim C6 -/

theorem sum_filter_map_eq {α : Type} (q : α → Bool) (f g : α → Money) :
    ∀ l : List α, (∀ x ∈ l, f x = g x) →
      ((l.filter q).map f).sum = (l.map (fun x => if q x then g x else 0)).sum := by
  intro l
  induction l with
  | nil => intro _; rfl
  | cons x xs ih =>
    intro hfg
    rw [List.filter_cons]
    by_cases hq : q x = true
    · rw [if_pos hq, List.map_cons, List.sum_cons, List.map_cons, List.sum_cons,
        hfg x (List.mem_cons_self x xs), if_pos hq,
        ih (fun y hy => hfg y (List.mem_cons_of_mem x hy))]
    · rw [if_neg hq, List.map_cons, List.sum_cons, if_neg hq,
        ih (fun y hy => hfg y (List.mem_cons_of_mem x hy))]
      ring

/-- C6: under the balance invariant, the dashboard's backward reconstruction
(current stored balance with every entry dated strictly after the cutoff
undone) equals the ledger-derived balance restricted to entries dated
on-or-before the cutoff; and the whole-ledger net worth for a date sums
the reconstructed balances of exactly the active accounts whose setup date
is present and on-or-before that date — any other account contributes
nothing (the zero branch). -/
theorem c6_historical (db : Db) (cutoff : Day) (hinv : balanceInvariant db) :
    (∀ p ∈ db.accounts, historicalBalance db p cutoff = computedBalanceAsOf db p.1 cutoff) ∧
    netWorthAt db cutoff
      = (db.accounts.map (fun p =>
          if accountQualifies p cutoff then computedBalanceAsOf db p.1 cutoff else 0)).sum := by
  have hsplitTx : ∀ (l : Table TxRow) (a : Pk),
      tableSum (txContrib a) l
        = tableSum (fun r => if r.bank_account = some a ∧ r.date ≤ cutoff then r.amount else 0) l
          + tableSum (fun r => if r.bank_account = some a ∧ cutoff < r.date then r.amount else 0)
            l := by
    intro l a
    rw [← tableSum_split]
    apply tableSum_congr
    intro r
    unfold txContrib
    by_cases h1 : r.bank_account = some a
    · by_cases h2 : r.date ≤ cutoff
      · simp [h1, h2, not_lt.mpr h2]
      · simp [h1, h2, not_le.mp h2]
    · simp [h1]
  have hsplitIn : ∀ (l : Table TransferRow) (a : Pk),
      tableSum (transferInContrib a) l
        = tableSum (fun r => if r.to_account = a ∧ r.date ≤ cutoff then r.amount else 0) l
          + tableSum (fun r => if r.to_account = a ∧ cutoff < r.date then r.amount else 0) l := by
    intro l a
    rw [← tableSum_split]
    apply tableSum_congr
    intro r
    unfold transferInContrib
    by_cases h1 : r.to_account = a
    · by_cases h2 : r.date ≤ cutoff
      · simp [h1, h2, not_lt.mpr h2]
      · simp [h1, h2, not_le.mp h2]
    · simp [h1]
  have hsplitOut : ∀ (l : Table TransferRow) (a : Pk),
      tableSum (transferOutContrib a) l
        = tableSum (fun r => if r.from_account = a ∧ r.date ≤ cutoff then r.amount else 0) l
          + tableSum (fun r => if r.from_account = a ∧ cutoff < r.date then r.amount else 0) l := by
    intro l a
    rw [← tableSum_split]
    apply tableSum_congr
    intro r
    unfold transferOutContrib
    by_cases h1 : r.from_account = a
    · by_cases h2 : r.date ≤ cutoff
      · simp [h1, h2, not_lt.mpr h2]
      · simp [h1, h2, not_le.mp h2]
    · simp [h1]
  have h1 : ∀ p ∈ db.accounts,
      historicalBalance db p cutoff = computedBalanceAsOf db p.1 cutoff := by
    intro p hp
    unfold historicalBalance futureIncomeSum futureExpenseSum futureTransferOutSum
      futureTransferInSum
    rw [hinv p hp]
    unfold computedBalance computedBalanceAsOf
    rw [hsplitTx db.incomes p.1, hsplitTx db.expenses p.1, hsplitIn db.transfers p.1,
      hsplitOut db.transfers p.1]
    ring
  refine ⟨h1, ?_⟩
  unfold netWorthAt
  exact sum_filter_map_eq _ _ _ db.accounts (fun p hp => h1 p hp)

/-- Witness for C6: the spec's example — an account currently at 1500 whose
+500 Income is dated after the cutoff reconstructs to exactly 1000 as of
that cutoff. -/
theorem c6_historical_witness :
    historicalBalance dbHist (1, ⟨1500, 0, some 0, true⟩) 5 = 1000 := by
  have h := (c6_historical dbHist 5 (by decide)).1 (1, ⟨1500, 0, some 0, true⟩) (by decide)
  exact h.trans (by decide)

/-! ## Claim C9 -/

theorem setOpeningField_incomes (db : Db) (pk : Pk) (v : Money) :
    (setOpeningField db pk v).incomes = db.incomes := rfl

theorem setOpeningField_expenses (db : Db) (pk : Pk) (v : Money) :
    (setOpeningField db pk v).expenses = db.expenses := rfl

theorem setOpeningField_transfers (db : Db) (pk : Pk) (v : Money) :
    (setOpeningField db pk v).transfers = db.transfers := rfl

theorem lookupRow_setOpeningField (db : Db) (pk : Pk) (v : Money) (c : Pk) :
    lookupRow (setOpeningField db pk v).accounts c
      = (lookupRow db.accounts c).map
          (fun r => if c = pk then { r with opening_balance := v } else r) := by
  show lookupRow (db.accounts.map (fun p =>
      (p.1, (fun k (r : AccountRow) =>
        if k = pk then { r with opening_balance := v } else r) p.1 p.2))) c = _
  exact lookupRow_map
    (fun k (r : AccountRow) => if k = pk then { r with opening_balance := v } else r)
    db.accounts c

theorem lookupBalance_setOpeningField (db : Db) (pk : Pk) (v : Money) (c : Pk) :
    lookupBalance (setOpeningField db pk v) c = lookupBalance db c := by
  unfold lookupBalance
  rw [lookupRow_setOpeningField]
  cases lookupRow db.accounts c with
  | none => rfl
  | some r => by_cases h : c = pk <;> simp [h]

/-- C9: revising the opening balance of an account that has exactly one
opening-balance marker Income row updates that marker's amount via the
amount-changed path of `Income.save` — the stored balance moves by exactly
`newOpening − old marker amount` — and leaves every other Income row, the
Expense and Transfer tables, and every other account's balance unchanged. -/
theorem c9_revise_opening (db : Db) (acctPk : Pk) (newOpening : Money)
    (acct : AccountRow) (ipk : Pk) (irow : TxRow)
    (hnd : (db.incomes.map Prod.fst).Nodup)
    (hacct : lookupRow db.accounts acctPk = some acct)
    (hne : newOpening ≠ acct.opening_balance)
    (hmark : db.incomes.filter (openingMarkerPred db acctPk acct.account_setup_date)
      = [(ipk, irow)]) :
    lookupBalance (bankAccountUpdateOpening db acctPk newOpening) acctPk
        = some (acct.balance + (newOpening - irow.amount)) ∧
    (ipk, { irow with amount := newOpening })
        ∈ (bankAccountUpdateOpening db acctPk newOpening).incomes ∧
    (∀ q ∈ db.incomes, q.1 ≠ ipk →
      q ∈ (bankAccountUpdateOpening db acctPk newOpening).incomes) ∧
    (bankAccountUpdateOpening db acctPk newOpening).expenses = db.expenses ∧
    (bankAccountUpdateOpening db acctPk newOpening).transfers = db.transfers ∧
    (∀ c, c ≠ acctPk →
      lookupBalance (bankAccountUpdateOpening db acctPk newOpening) c
        = lookupBalance db c) := by
  have hmem : (ipk, irow) ∈ db.incomes := by
    have hm : (ipk, irow) ∈ db.incomes.filter
        (openingMarkerPred db acctPk acct.account_setup_date) := by
      rw [hmark]
      exact List.mem_singleton.mpr rfl
    exact List.mem_of_mem_filter hm
  have hpred : openingMarkerPred db acctPk acct.account_setup_date (ipk, irow) = true := by
    have hm : (ipk, irow) ∈ db.incomes.filter
        (openingMarkerPred db acctPk acct.account_setup_date) := by
      rw [hmark]
      exact List.mem_singleton.mpr rfl
    exact List.of_mem_filter hm
  have hba : irow.bank_account = some acctPk := by
    unfold openingMarkerPred at hpred
    simp only [Bool.and_eq_true, beq_iff_eq] at hpred
    exact hpred.1.1
  have hd : bankAccountUpdateOpening db acctPk newOpening
      = incomeUpdate (setOpeningField db acctPk
          (if newOpening = 0 then acct.opening_balance else newOpening)) ipk
          { irow with amount := newOpening } := by
    simp only [bankAccountUpdateOpening, hacct, hmark]
    rw [if_neg hne]
  have hlook : lookupRow (setOpeningField db acctPk
        (if newOpening = 0 then acct.opening_balance else newOpening)).incomes ipk
      = some irow := by
    rw [setOpeningField_incomes]
    exact lookupRow_of_mem hnd hmem
  have hincomes : (bankAccountUpdateOpening db acctPk newOpening).incomes
      = setRow db.incomes ipk { irow with amount := newOpening } := by
    rw [hd, incomeUpdate_incomes_some _ _ _ irow hlook, setOpeningField_incomes]
  refine ⟨?_, ?_, ?_, ?_, ?_, ?_⟩
  · rw [hd]
    by_cases hamt : irow.amount ≠ newOpening
    · have hu : incomeUpdate (setOpeningField db acctPk
            (if newOpening = 0 then acct.opening_balance else newOpening)) ipk
            { irow with amount := newOpening }
          = updateBalance { setOpeningField db acctPk
                (if newOpening = 0 then acct.opening_balance else newOpening) with
              incomes := setRow db.incomes ipk { irow with amount := newOpening } }
              acctPk (newOpening - irow.amount) := by
        simp only [incomeUpdate, hlook, hba]
        rw [if_neg (fun h : acctPk ≠ acctPk => h rfl), if_pos hamt]
        rfl
      rw [hu, lookupBalance_updateBalance_self, lookupBalance_set_incomes,
        lookupBalance_setOpeningField]
      unfold lookupBalance
      rw [hacct]
      rfl
    · push_neg at hamt
      have hu : incomeUpdate (setOpeningField db acctPk
            (if newOpening = 0 then acct.opening_balance else newOpening)) ipk
            { irow with amount := newOpening }
          = { setOpeningField db acctPk
                (if newOpening = 0 then acct.opening_balance else newOpening) with
              incomes := setRow db.incomes ipk { irow with amount := newOpening } } := by
        simp only [incomeUpdate, hlook, hba]
        rw [if_neg (fun h : acctPk ≠ acctPk => h rfl),
          if_neg (fun h : irow.amount ≠ newOpening => h hamt)]
        rfl
      rw [hu, lookupBalance_set_incomes, lookupBalance_setOpeningField]
      unfold lookupBalance
      rw [hacct, ← hamt]
      simp
  · rw [hincomes]
    have hmap := List.mem_map_of_mem
      (fun p => if p.1 = ipk then (ipk, { irow with amount := newOpening }) else p) hmem
    have he : (fun p => if p.1 = ipk then (ipk, { irow with amount := newOpening }) else p)
        (ipk, irow) = (ipk, { irow with amount := newOpening }) := by
      simp
    rw [he] at hmap
    exact hmap
  · intro q hq hqne
    rw [hincomes]
    have hmap := List.mem_map_of_mem
      (fun p => if p.1 = ipk then (ipk, { irow with amount := newOpening }) else p) hq
    have he : (fun p => if p.1 = ipk then (ipk, { irow with amount := newOpening }) else p) q
        = q := by
      simp [hqne]
    rw [he] at hmap
    exact hmap
  · rw [hd, incomeUpdate_expenses, setOpeningField_expenses]
  · rw [hd, incomeUpdate_transfers, setOpeningField_transfers]
  · intro c hc
    rw [hd]
    by_cases hamt : irow.amount ≠ newOpening
    · have hu : incomeUpdate (setOpeningField db acctPk
            (if newOpening = 0 then acct.opening_balance else newOpening)) ipk
            { irow with amount := newOpening }
          = updateBalance { setOpeningField db acctPk
                (if newOpening = 0 then acct.opening_balance else newOpening) with
              incomes := setRow db.incomes ipk { irow with amount := newOpening } }
              acctPk (newOpening - irow.amount) := by
        simp only [incomeUpdate, hlook, hba]
        rw [if_neg (fun h : acctPk ≠ acctPk => h rfl), if_pos hamt]
        rfl
      rw [hu, lookupBalance_updateBalance_ne _ _ _ _ hc, lookupBalance_set_incomes,
        lookupBalance_setOpeningField]
    · push_neg at hamt
      have hu : incomeUpdate (setOpeningField db acctPk
            (if newOpening = 0 then acct.opening_balance else newOpening)) ipk
            { irow with amount := newOpening }
          = { setOpeningField db acctPk
                (if newOpening = 0 then acct.opening_balance else newOpening) with
              incomes := setRow db.incomes ipk { irow with amount := newOpening } } := by
        simp only [incomeUpdate, hlook, hba]
        rw [if_neg (fun h : acctPk ≠ acctPk => h rfl),
          if_neg (fun h : irow.amount ≠ newOpening => h hamt)]
        rfl
      rw [hu, lookupBalance_set_incomes, lookupBalance_setOpeningField]

/-- Witness for C9: the spec's example — an account at 1500 (1000 opening,
500 salary) whose opening balance is changed to 2000 ends at balance 2500
with the salary Income untouched. -/
theorem c9_revise_opening_witness :
    lookupBalance (bankAccountUpdateOpening dbOpening 1 2000) 1 = some 2500 ∧
    (11, (⟨some 1, some 6, 500, 3⟩ : TxRow))
      ∈ (bankAccountUpdateOpening dbOpening 1 2000).incomes := by
  have h := c9_revise_opening dbOpening 1 2000 ⟨1500, 1000, some 0, true⟩ 10
    ⟨some 1, some 5, 1000, 0⟩ (by decide) (by decide) (by decide) (by decide)
  exact ⟨h.1.trans (by decide), h.2.2.1 (11, ⟨some 1, some 6, 500, 3⟩) (by decide) (by decide)⟩
